import Mathlib

/-!
# GenConvNMI: the sampling engine `deep_complete_simulator`

A shallow embedding of `src/deep_complete_simulator.cpp` and the properties of
its retry loop (`get_sample`), its single attempt (`try_get_sample`) and of
`fork` / `vertices_num`.

Conventions of the embedding.

* `size_t` values (vertex ids, module ids, counters) are natural numbers; the
  sentinel `RESULT_NONE = (size_t)-1` is `2 ^ 64 - 1`.  The sums
  `iv2 + used_vertex_index` and `(rm1.size() + rm2.size()) * 2` stay far below
  `2 ^ 64` (a draw is below `2 ^ 32`, a set size is bounded by memory), so they
  are plain sums; the `uint32_t` counter `attempt_count` is reduced modulo
  `2 ^ 32` where the source increments it.
* `importance_float_t` is modelled by `ℚ`: the only values the source computes
  are `1.0` and sums of at most 1024 such terms, which binary floating point
  represents exactly.
* Containers are lists in iteration order.  Moving a set (`std::move`) leaves
  the source empty; the only moved-from set the source reads again was empty
  before it was moved.  Move-assigning to a set destroys the elements it held,
  so an iterator taken into it before is invalidated.
* Undefined behaviour of the source (modulo by zero, out-of-range access, a
  read through an invalidated iterator) is the outcome `undefined` of the hop
  loop, of an attempt and of `get_sample`; `timeout` is the outcome of a loop
  model that ran out of fuel, shown unreachable for the fuel the callers
  supply.  Within one hop the two kinds of undefined behaviour are kept apart:
  `undefined` is a modulo by zero or a read at a position outside a range,
  `invalidated_read` the read through the invalidated iterator.
-/

namespace gecmi

/-! ## Data model -/

/-- Value of `constexpr static size_t RESULT_NONE = -1` for a 64-bit `size_t`. -/
def RESULT_NONE : Nat := 2 ^ 64 - 1

/-- The constant `MAX_ACCEPTABLE_FAILURES` (source line 20). -/
def MAX_ACCEPTABLE_FAILURES : Nat := 1024

/-- Modelled from the spec: `simulation_result_t` is declared in
`deep_complete_simulator.hpp`, which is not among the sources.  The spec's
Sample: a pair of module ids (or the "none" sentinel), an importance weight and
an accumulated failed-attempts weight; the field names are the ones the source
uses. -/
structure simulation_result_t where
  first : Nat
  second : Nat
  importance : ℚ
  failed_attempts : ℚ

/-- Modelled from the spec: the one-argument constructor of
`simulation_result_t` (declared in the missing header), as used in
`simulation_result_t result(RESULT_NONE)`: both module ids are the argument and
the accumulated failed-attempts weight starts at zero. -/
def simulation_result_t.fresh (mods : Nat) : simulation_result_t :=
  ⟨mods, mods, 0, 0⟩

/-- Modelled from the spec: one bidirectional vertex/module relation (a bimap
declared in headers that are not among the sources).  `left v` is the module
set the forward lookup yields for vertex `v`, in iteration order; `right m` is
the member range `right.equal_range(m)` yields for module `m`, as the list of
the vertices `ivt->second` in iteration order. -/
structure vertex_module_relation where
  left : Nat → List Nat
  right : Nat → List Nat

/-- The pair of relations `tworel` (one per clustering). -/
structure two_relations where
  first : vertex_module_relation
  second : vertex_module_relation

/-- Modelled from the spec: the free function `gecmi::get_modules` (declared in
a missing header), called by `pimpl_t::get_modules` after clearing both sets:
the forward lookup of the vertex in each of the two relations. -/
def get_modules (tworel : two_relations) (vertex : Nat) : List Nat × List Nat :=
  (tworel.first.left vertex, tworel.second.left vertex)

/-- Modelled from the spec: the status of a convergence automaton
(`pa_status_t`, declared in the missing `player_automaton.hpp`); the source
names `SUCCESS` only. -/
inductive pa_status_t where
  | PENDING
  | SUCCESS
  | FAILED
deriving DecidableEq, Repr

/-- The interface of `player_automaton` that the source uses; the class is
declared in the missing `player_automaton.hpp`, so its operations are a
parameter of the embedding.  `going` is `pa_status_t::going`. -/
structure player_automaton (α : Type) where
  make : List Nat → α
  set_operation_kind : Bool → α → α
  take_set : List Nat → α → α
  get_status : α → pa_status_t
  get_a_module : α → Nat
  going : pa_status_t → pa_status_t → Bool

/-- The state of the pseudorandom stream: the values the generator yields
through the distribution, and how many have been drawn. -/
structure randgen where
  raw : Nat → Nat
  pos : Nat

/-- Upper bound of `lindis(0, vertices.size() - 1)`: the subtraction is done in
`size_t` and the bound is converted to `uint32_t`. -/
def lindis_max (n : Nat) : Nat := ((n + 2 ^ 64 - 1) % 2 ^ 64) % 2 ^ 32

/-- One draw `lindis(rndgen)`: a value in `[0, b]` and the advanced stream. -/
def lindis (b : Nat) (g : randgen) : Nat × randgen :=
  (g.raw g.pos % (b + 1), ⟨g.raw, g.pos + 1⟩)

/-- The members of `pimpl_t`; `lindis` is the upper bound of the
distribution (its lower bound is 0). -/
structure pimpl_t where
  tworel : two_relations
  rndgen : randgen
  lindis : Nat
  verts : List Nat

/-- Outcome of a modelled code fragment. -/
inductive run (β : Type) where
  | ok (b : β)
  | undefined
  | timeout

/-! ## One hop of the walk (source lines 134 to 224) -/

/-- The module set chosen for a hop, with what the two moves leave in `rm1`
and `rm2` (lines 143 to 150). -/
structure side_choice where
  v2first : Bool
  v2bms : List Nat
  rm1 : List Nat
  rm2 : List Nat

/-- Lines 143 to 150: the parity of the draw selects the side; an empty set is
replaced by the other side's set and the flag is flipped. -/
def choose_side (iv2 : Nat) (rm1 rm2 : List Nat) : side_choice :=
  let v2first : Bool := decide (iv2 % 2 ≠ 0)
  let c : side_choice := if v2first then ⟨true, rm1, [], rm2⟩ else ⟨false, rm2, rm1, []⟩
  if c.v2bms.isEmpty then
    (if c.v2first then ⟨false, c.rm2, c.rm1, []⟩ else ⟨true, c.rm1, [], c.rm2⟩)
  else c

/-- An iterator advanced from `begin()` by `i % size()` and dereferenced;
`none` when the container is empty (modulo by zero). -/
def nth_mod (xs : List Nat) (i : Nat) : Option Nat :=
  if xs.length = 0 then none else xs[i % xs.length]?

/-- The step `if (++ivt == iverts.second) ivt = iverts.first`. -/
def wrap_next (len i : Nat) : Nat := if i + 1 = len then 0 else i + 1

/-- What one execution of the loop body does after the draw: it adopts a
vertex and feeds the automatons (`adopted`), leaves the loop by the `break` of
line 177 (`dead_end`), or runs into undefined behaviour: a modulo by zero or a
read at a position outside a range (`undefined`), or, at the singleton-fallback
return, the read `*iv2mod` of lines 190 and 194 (`invalidated_read`): `iv2mod`
is an iterator into `v2bms` taken at lines 155 and 156, and line 174 has
move-assigned `v2bms` since, which destroys the element the iterator points
to. -/
inductive hop_result (α : Type) where
  | adopted (vertex : Nat) (rm1 rm2 : List Nat) (pa1 pa2 : α)
  | invalidated_read
  | dead_end
  | undefined

/-- Lines 215 to 224: adopt the target vertex, look its modules up and feed
both automatons. -/
def adopt {α : Type} (A : player_automaton α) (tworel : two_relations)
    (pa1 pa2 : α) (iv2 uvi target : Nat) : hop_result α :=
  let ms := get_modules tworel target
  let do_intersection : Bool := decide ((iv2 + uvi) % 2 ≠ 0)
  .adopted target ms.1 ms.2
    (A.take_set ms.1 (A.set_operation_kind do_intersection pa1))
    (A.take_set ms.2 (A.set_operation_kind do_intersection pa2))

/-- Lines 172 to 212: the branch taken when the candidate and its wrapped
successor are both the current vertex.  `_iv2mod` is the module selected at
lines 155 and 156; line 174 move-assigns `v2bms`, so from there on the iterator
`iv2mod` of the source no longer points to it, and the branch has no defined
way to read that module.  When the other side's set holds a module with a
one-member range, the source picks one (`v2mod`) and then reads `*iv2mod` to
write the pair (lines 190 and 194): that read is through the invalidated
iterator.  The second selection (line 199) assigns `iv2mod` anew before it is
read. -/
def singleton_branch {α : Type} (A : player_automaton α) (tworel : two_relations)
    (vertex : Nat) (pa1 pa2 : α) (iv2 uvi : Nat) (c : side_choice) (_iv2mod : Nat) :
    hop_result α :=
  let v2bms := if c.v2first then c.rm2 else c.rm1
  if v2bms.isEmpty then .dead_end
  else
    let mtov2 := (if c.v2first then tworel.second else tworel.first).right
    let v2mods := v2bms.filter (fun v2mod => decide ((mtov2 v2mod).length = 1))
    if v2mods.isEmpty then
      match nth_mod v2bms iv2 with
      | none => .undefined
      | some iv2mod2 =>
        let iverts := mtov2 iv2mod2
        if iverts.length = 0 then .undefined
        else
          let ivt := (iv2 + uvi) % iverts.length
          match iverts[ivt]? with
          | none => .undefined
          | some v =>
            let ivt2 := if v = vertex then wrap_next iverts.length ivt else ivt
            match iverts[ivt2]? with
            | none => .undefined
            | some target => adopt A tworel pa1 pa2 iv2 uvi target
    else
      match v2mods[(iv2 + uvi) % v2mods.length]? with
      | none => .undefined
      | some _ => .invalidated_read

/-- The loop body after `++used_vertex_index` and the draw `iv2`
(lines 143 to 224); `uvi` is the incremented `used_vertex_index`. -/
def hop {α : Type} (A : player_automaton α) (tworel : two_relations)
    (vertex : Nat) (rm1 rm2 : List Nat) (pa1 pa2 : α) (iv2 uvi : Nat) : hop_result α :=
  let c := choose_side iv2 rm1 rm2
  match nth_mod c.v2bms iv2 with
  | none => .undefined
  | some iv2mod =>
    let iverts := (if c.v2first then tworel.first else tworel.second).right iv2mod
    if iverts.length = 0 then .undefined
    else
      let ivt := (iv2 + uvi) % iverts.length
      match iverts[ivt]? with
      | none => .undefined
      | some v =>
        if v = vertex then
          let ivt2 := wrap_next iverts.length ivt
          match iverts[ivt2]? with
          | none => .undefined
          | some v2 =>
            if v2 = vertex then singleton_branch A tworel vertex pa1 pa2 iv2 uvi c iv2mod
            else adopt A tworel pa1 pa2 iv2 uvi v2
        else adopt A tworel pa1 pa2 iv2 uvi v

/-! ## The hop loop and one attempt -/

/-- The local variables of `try_get_sample` that live across iterations. -/
structure walk_state (α : Type) where
  vertex : Nat
  rm1 : List Nat
  rm2 : List Nat
  pa1 : α
  pa2 : α
  used_vertex_index : Nat
  rndgen : randgen

/-- How the `while` loop of `try_get_sample` is left: by its condition or by
the `break` (`finished`), or in undefined behaviour of a hop, which includes
the singleton-fallback return of line 196, reached only through the read of an
invalidated iterator. -/
inductive loop_exit (α : Type) where
  | finished (pa1 pa2 : α) (g : randgen)
  | undefined
  | timeout

/-- The loop condition (lines 128 to 132). -/
def loop_cond {α : Type} (A : player_automaton α) (attempts : Nat) (s : walk_state α) : Bool :=
  A.going (A.get_status s.pa1) (A.get_status s.pa2) && decide (s.used_vertex_index < attempts)

/-- The `while` loop of `try_get_sample` (lines 128 to 225), with fuel. -/
def hop_loop {α : Type} (A : player_automaton α) (tworel : two_relations) (b attempts : Nat) :
    Nat → walk_state α → loop_exit α
  | 0, s => if loop_cond A attempts s then .timeout else .finished s.pa1 s.pa2 s.rndgen
  | fuel + 1, s =>
    if loop_cond A attempts s then
      let uvi := s.used_vertex_index + 1
      let d := lindis b s.rndgen
      match hop A tworel s.vertex s.rm1 s.rm2 s.pa1 s.pa2 d.1 uvi with
      | .adopted v rm1 rm2 pa1 pa2 =>
        hop_loop A tworel b attempts fuel ⟨v, rm1, rm2, pa1, pa2, uvi, d.2⟩
      | .invalidated_read => .undefined
      | .dead_end => .finished s.pa1 s.pa2 d.2
      | .undefined => .undefined
    else .finished s.pa1 s.pa2 s.rndgen

/-- Lines 229 to 235: what is written into `result` after the loop. -/
def conclude {α : Type} (A : player_automaton α) (p : pimpl_t) (result : simulation_result_t) :
    loop_exit α → run (simulation_result_t × pimpl_t)
  | .finished pa1 pa2 g =>
    if A.get_status pa1 = pa_status_t.SUCCESS ∧ A.get_status pa2 = pa_status_t.SUCCESS then
      .ok (⟨A.get_a_module pa1, A.get_a_module pa2, result.importance, result.failed_attempts⟩,
        ⟨p.tworel, g, p.lindis, p.verts⟩)
    else
      .ok (⟨RESULT_NONE, RESULT_NONE, result.importance, result.failed_attempts⟩,
        ⟨p.tworel, g, p.lindis, p.verts⟩)
  | .undefined => .undefined
  | .timeout => .timeout

/-- Lines 105 to 111: the start vertex and its module sets. -/
def start_vertex (tworel : two_relations) (vertex0 : Nat) : Nat × List Nat × List Nat :=
  let ms := get_modules tworel vertex0
  if vertex0 = 0 ∧ ms.1.length = 0 ∧ ms.2.length = 0 then
    (vertex0 + 1, get_modules tworel (vertex0 + 1))
  else (vertex0, ms)

/-- The member function `pimpl_t::try_get_sample` (lines 101 to 236). -/
def try_get_sample {α : Type} (A : player_automaton α) (p : pimpl_t)
    (result : simulation_result_t) : run (simulation_result_t × pimpl_t) :=
  let result1 : simulation_result_t :=
    ⟨result.first, result.second, 1, result.failed_attempts⟩
  let d := lindis p.lindis p.rndgen
  match p.verts[d.1]? with
  | none => .undefined
  | some vertex0 =>
    let sv := start_vertex p.tworel vertex0
    let attempts := (sv.2.1.length + sv.2.2.length) * 2
    conclude A p result1
      (hop_loop A p.tworel p.lindis attempts attempts
        ⟨sv.1, sv.2.1, sv.2.2, A.make sv.2.1, A.make sv.2.2, 1, d.2⟩)

/-! ## The retry loop -/

/-- How `get_sample` ends; `attempt_count` is the final value of the local
counter, `st` the state the attempts left behind. -/
inductive sample_outcome (σ : Type) where
  | returned (result : simulation_result_t) (st : σ) (attempt_count : Nat)
  | domain_error (st : σ) (attempt_count : Nat)
  | undefined
  | timeout

/-- Lines 83 and 84: a failed attempt's importance is added to the
failed-attempts weight. -/
def note_failure (r : simulation_result_t) : simulation_result_t :=
  if r.first = RESULT_NONE then
    ⟨r.first, r.second, r.importance, r.failed_attempts + r.importance⟩
  else r

/-- The `while` loop of `get_sample` (lines 79 to 91) over any single-attempt
primitive `attempt`, with fuel. -/
def get_sample_loop {σ : Type}
    (attempt : σ → simulation_result_t → run (simulation_result_t × σ)) :
    Nat → Nat → simulation_result_t → σ → sample_outcome σ
  | 0, attempt_count, result, st =>
    if result.first = RESULT_NONE then .timeout else .returned result st attempt_count
  | fuel + 1, attempt_count, result, st =>
    if result.first = RESULT_NONE then
      match attempt st result with
      | .undefined => .undefined
      | .timeout => .timeout
      | .ok (r, st1) =>
        let r1 := note_failure r
        let attempt_count1 := (attempt_count + 1) % 2 ^ 32
        if attempt_count1 ≥ MAX_ACCEPTABLE_FAILURES then .domain_error st1 attempt_count1
        else get_sample_loop attempt fuel attempt_count1 r1 st1
    else .returned result st attempt_count

/-- The body of `get_sample` (lines 75 to 97) over any single-attempt
primitive. -/
def get_sample_with {σ : Type}
    (attempt : σ → simulation_result_t → run (simulation_result_t × σ)) (st : σ) :
    sample_outcome σ :=
  get_sample_loop attempt MAX_ACCEPTABLE_FAILURES 0 (simulation_result_t.fresh RESULT_NONE) st

/-- The member function `pimpl_t::get_sample` (lines 75 to 97). -/
def get_sample {α : Type} (A : player_automaton α) (p : pimpl_t) : sample_outcome pimpl_t :=
  get_sample_with (try_get_sample A) p

/-! ## Construction, `vertices_num` and `fork` -/

/-- The constructor `pimpl_t(tworels, vertices, seed)` (lines 47 to 50);
`mt19937 seed` is the stream the seeded generator yields. -/
def pimpl_t.construct (mt19937 : Nat → Nat → Nat) (tworels : two_relations)
    (vertices : List Nat) (seed : Nat) : pimpl_t :=
  ⟨tworels, ⟨mt19937 seed, 0⟩, lindis_max vertices.length, vertices⟩

/-- The class `deep_complete_simulator`: an implementation handle that may be
null. -/
structure deep_complete_simulator where
  impl : Option pimpl_t

/-- The member function `vertices_num` (lines 255 to 258). -/
def deep_complete_simulator.vertices_num (d : deep_complete_simulator) : Nat :=
  match d.impl with
  | some p => p.verts.length
  | none => 0

/-- The member function `fork` (lines 276 to 279), a `const` member: it leaves
the parent as it is and builds a new instance from the parent's relation pair
and vertex set, seeded with the value `rd` that `random_device` yields.  The
result is the parent after the call and the new instance; `none` when the
handle is null (null dereference). -/
def deep_complete_simulator.fork (mt19937 : Nat → Nat → Nat) (rd : Nat)
    (d : deep_complete_simulator) : Option (deep_complete_simulator × deep_complete_simulator) :=
  match d.impl with
  | none => none
  | some p => some (d, ⟨some (pimpl_t.construct mt19937 p.tworel p.verts rd)⟩)

/-- An input in which the two clusterings use the same module ids: clustering
A has the modules 1 and 2, both with members 0, 1; clustering B has the
modules 1 and 2, both with members 0, 2. -/
def shared_ids : two_relations where
  first :=
    ⟨fun v => if v = 0 ∨ v = 1 then [1, 2] else [],
     fun m => if m = 1 ∨ m = 2 then [0, 1] else []⟩
  second :=
    ⟨fun v => if v = 0 ∨ v = 2 then [1, 2] else [],
     fun m => if m = 1 ∨ m = 2 then [0, 2] else []⟩

/-- The candidate next vertex of a hop as claim C8 words it: the module is
selected as the source does, and the candidate is taken from the member range
of that module in the backward view of the clustering that did not supply the
module's set, at position `(draw + hop_count)` modulo the range length. -/
def candidate_in_other_view (tworel : two_relations) (rm1 rm2 : List Nat) (iv2 uvi : Nat) :
    Option Nat :=
  let c := choose_side iv2 rm1 rm2
  match nth_mod c.v2bms iv2 with
  | none => none
  | some iv2mod =>
    nth_mod ((if c.v2first then tworel.second else tworel.first).right iv2mod) (iv2 + uvi)

/-! ## Describing a run of the retry loop -/

/-- The result and the state before the next call of the primitive when the
first `n` calls, made from `result` and `st`, all left
`result.first == RESULT_NONE`; `none` when one of them did not. -/
def failures_from {σ : Type}
    (attempt : σ → simulation_result_t → run (simulation_result_t × σ)) :
    Nat → simulation_result_t → σ → Option (simulation_result_t × σ)
  | 0, result, st => some (result, st)
  | n + 1, result, st =>
    match attempt st result with
    | .ok (r, st1) =>
      if r.first = RESULT_NONE then failures_from attempt n (note_failure r) st1 else none
    | .undefined => none
    | .timeout => none

/-- A single-attempt primitive instrumented with a counter of its calls. -/
def counted {σ : Type}
    (attempt : σ → simulation_result_t → run (simulation_result_t × σ)) :
    σ × Nat → simulation_result_t → run (simulation_result_t × (σ × Nat)) :=
  fun s result =>
    match attempt s.1 result with
    | .ok (r, st1) => .ok (r, (st1, s.2 + 1))
    | .undefined => .undefined
    | .timeout => .timeout

/-- A single-attempt primitive that replays a sequence of outcomes: call
number `k` (from 0) writes the pair `o k` and, as `try_get_sample` does, sets
the importance to 1.0; its state is the number of calls made. -/
def replay (o : Nat → Nat × Nat) :
    Nat → simulation_result_t → run (simulation_result_t × Nat) :=
  fun k result => .ok (⟨(o k).1, (o k).2, 1, result.failed_attempts⟩, k + 1)

/-! ## The automaton of the spec and concrete inputs -/

/-- Modelled from the spec: the state of a convergence automaton (the class is
declared in the missing `player_automaton.hpp`): the running candidate module
set and the operation kind chosen last. -/
structure candidate_set where
  candidate : List Nat
  do_intersection : Bool

/-- Modelled from the spec: the convergence automaton, "a state machine
narrowing a candidate module set toward one module via repeated
intersection/union with newly observed sets".  It is seeded with a module set;
`take_set` applies the chosen operation to the running candidate; the status
is SUCCESS when the candidate is one module (the module `get_a_module`
yields), FAILED when it is empty and PENDING otherwise; the loop goes on while
both automatons are PENDING (the spec's `bothPending`). -/
def spec_automaton : player_automaton candidate_set where
  make ms := ⟨ms, true⟩
  set_operation_kind b a := ⟨a.candidate, b⟩
  take_set ms a :=
    if a.do_intersection then
      ⟨a.candidate.filter (fun m => decide (m ∈ ms)), a.do_intersection⟩
    else ⟨a.candidate ++ ms.filter (fun m => decide (m ∉ a.candidate)), a.do_intersection⟩
  get_status a :=
    match a.candidate with
    | [] => pa_status_t.FAILED
    | [_] => pa_status_t.SUCCESS
    | _ :: _ :: _ => pa_status_t.PENDING
  get_a_module a := a.candidate.headD RESULT_NONE
  going s1 s2 := decide (s1 = pa_status_t.PENDING) && decide (s2 = pa_status_t.PENDING)

/-- Scenario A of the spec: vertices 0 to 3; clustering A has module 10 with
members 0, 1 and module 11 with members 2, 3; clustering B has module 20 with
members 0, 2 and module 21 with members 1, 3. -/
def scenario_A : two_relations where
  first :=
    ⟨fun v => if v = 0 ∨ v = 1 then [10] else if v = 2 ∨ v = 3 then [11] else [],
     fun m => if m = 10 then [0, 1] else if m = 11 then [2, 3] else []⟩
  second :=
    ⟨fun v => if v = 0 ∨ v = 2 then [20] else if v = 1 ∨ v = 3 then [21] else [],
     fun m => if m = 20 then [0, 2] else if m = 21 then [1, 3] else []⟩

/-- An instance of Scenario B of the spec: vertices 0 and 1; clustering A has
module 10 with members 0, 1; clustering B has module 20 with the one member 0,
so vertex 1 maps to no module in clustering B. -/
def scenario_B : two_relations where
  first := ⟨fun v => if v = 0 ∨ v = 1 then [10] else [], fun m => if m = 10 then [0, 1] else []⟩
  second := ⟨fun v => if v = 0 then [20] else [], fun m => if m = 20 then [0] else []⟩

/-- The simulator state over Scenario B after `k` draws from the stream
`raw`. -/
def scenario_B_state (raw : Nat → Nat) (k : Nat) : pimpl_t :=
  ⟨scenario_B, ⟨raw, k⟩, 1, [0, 1]⟩

/-- A stream whose first 1023 draws select vertex 1 and whose later draws
select vertex 0. -/
def late_stream : Nat → Nat := fun i => if i < 1023 then 1 else 0

/-- A sequence of attempt outcomes: 1023 failures, then the pair (10, 20). -/
def late_outcomes : Nat → Nat × Nat :=
  fun k => if k < 1023 then (RESULT_NONE, RESULT_NONE) else (10, 20)

/-- A stream whose first two draws select vertex 1 and whose later draws select
vertex 0. -/
def retry_stream : Nat → Nat := fun i => if i < 2 then 1 else 0

/-- An input with overlapping modules: vertices 0 and 1 are both members of
the modules 10 and 11 of clustering A and of the modules 20 and 21 of
clustering B. -/
def overlap : two_relations where
  first :=
    ⟨fun v => if v = 0 ∨ v = 1 then [10, 11] else [],
     fun m => if m = 10 ∨ m = 11 then [0, 1] else []⟩
  second :=
    ⟨fun v => if v = 0 ∨ v = 1 then [20, 21] else [],
     fun m => if m = 20 ∨ m = 21 then [0, 1] else []⟩

/-- A generator for concrete runs: seeded with `seed` it yields `seed`,
`seed + 1`, `seed + 2` and so on. -/
def counting_stream : Nat → Nat → Nat := fun seed i => seed + i

/-- An input with one-member modules: clustering A has module 10 with members
0, 1, module 11 with the member 0 and module 12 with the member 1; clustering B
has module 20 with members 0, 1, module 21 with the member 0 and module 22 with
the member 1. -/
def singles : two_relations where
  first :=
    ⟨fun v => if v = 0 then [10, 11] else if v = 1 then [10, 12] else [],
     fun m => if m = 10 then [0, 1] else if m = 11 then [0] else if m = 12 then [1] else []⟩
  second :=
    ⟨fun v => if v = 0 then [20, 21] else if v = 1 then [20, 22] else [],
     fun m => if m = 20 then [0, 1] else if m = 21 then [0] else if m = 22 then [1] else []⟩

/-- An input whose two relations are not in sync: in clustering B vertex 1 is
listed among the members of module 20 but has no module; in clustering A it is
the one member of module 12. -/
def unsynced : two_relations where
  first :=
    ⟨fun v => if v = 0 then [10, 11] else if v = 1 then [12] else [],
     fun m => if m = 10 ∨ m = 11 then [0] else if m = 12 then [1] else []⟩
  second :=
    ⟨fun v => if v = 0 then [20, 21] else [],
     fun m => if m = 20 then [0, 1] else if m = 21 then [0] else []⟩

/-- A stream with the draws 0, 0, 1 and then 0 for ever. -/
def dead_end_stream : Nat → Nat := fun i => if i = 2 then 1 else 0

/-- The loop state on `unsynced` after the hop from vertex 0 to vertex 1. -/
def unsynced_walk : walk_state candidate_set :=
  ⟨1, [12], [], ⟨[10, 11, 12], false⟩, ⟨[20, 21], false⟩, 2, ⟨dead_end_stream, 2⟩⟩

/-- The loop state on `singles` when the loop is entered from vertex 0. -/
def singles_walk : walk_state candidate_set :=
  ⟨0, [10, 11], [20, 21], spec_automaton.make [10, 11], spec_automaton.make [20, 21], 1,
    ⟨counting_stream 0, 1⟩⟩

/-! ## Definitions for the claims on the walk -/

/-- Lines 157 to 224: the loop body once the module `iv2mod` is selected from
the set of `c` (the part of `hop` that follows the selection). -/
def hop_from_module {α : Type} (A : player_automaton α) (tworel : two_relations)
    (vertex : Nat) (pa1 pa2 : α) (iv2 uvi : Nat) (c : side_choice) (iv2mod : Nat) :
    hop_result α :=
  let iverts := (if c.v2first then tworel.first else tworel.second).right iv2mod
  if iverts.length = 0 then .undefined
  else
    let ivt := (iv2 + uvi) % iverts.length
    match iverts[ivt]? with
    | none => .undefined
    | some v =>
      if v = vertex then
        let ivt2 := wrap_next iverts.length ivt
        match iverts[ivt2]? with
        | none => .undefined
        | some v2 =>
          if v2 = vertex then singleton_branch A tworel vertex pa1 pa2 iv2 uvi c iv2mod
          else adopt A tworel pa1 pa2 iv2 uvi v2
      else adopt A tworel pa1 pa2 iv2 uvi v

/-- The `while` loop of `try_get_sample` instrumented with a counter of the
executions of its body: the way the loop is left and the number of times the
body was entered. -/
def hop_loop_counted {α : Type} (A : player_automaton α) (tworel : two_relations)
    (b attempts : Nat) : Nat → walk_state α → loop_exit α × Nat
  | 0, s =>
    (if loop_cond A attempts s then .timeout else .finished s.pa1 s.pa2 s.rndgen, 0)
  | fuel + 1, s =>
    if loop_cond A attempts s then
      let uvi := s.used_vertex_index + 1
      let d := lindis b s.rndgen
      match hop A tworel s.vertex s.rm1 s.rm2 s.pa1 s.pa2 d.1 uvi with
      | .adopted v rm1 rm2 pa1 pa2 =>
        let rest := hop_loop_counted A tworel b attempts fuel ⟨v, rm1, rm2, pa1, pa2, uvi, d.2⟩
        (rest.1, rest.2 + 1)
      | .invalidated_read => (.undefined, 1)
      | .dead_end => (.finished s.pa1 s.pa2 d.2, 1)
      | .undefined => (.undefined, 1)
    else (.finished s.pa1 s.pa2 s.rndgen, 0)

/-- The data-model invariant of one relation: a module is in a vertex's
forward set exactly when the vertex is in that module's backward range. -/
def consistent (R : vertex_module_relation) : Prop :=
  ∀ v m, m ∈ R.left v ↔ v ∈ R.right m

/-- No backward range of the relation holds a vertex twice. -/
def no_repeats (R : vertex_module_relation) : Prop :=
  ∀ m, (R.right m).Nodup

/-- The module sets of a loop state are the forward lookups of its current
vertex. -/
def in_sync {α : Type} (tworel : two_relations) (s : walk_state α) : Prop :=
  s.rm1 = tworel.first.left s.vertex ∧ s.rm2 = tworel.second.left s.vertex

/-- The loop state in which `try_get_sample` reaches its loop from the start
vertex `sv.1` with the module sets `sv.2`, the stream being `g` (lines 114 to
124). -/
def first_walk {α : Type} (A : player_automaton α) (sv : Nat × List Nat × List Nat)
    (g : randgen) : walk_state α :=
  ⟨sv.1, sv.2.1, sv.2.2, A.make sv.2.1, A.make sv.2.2, 1, g⟩

/-- An input numbered from 1: the vertex set has the ids 0, 1, 2, and only the
vertices 1 and 2 have modules (module 10 of clustering A and module 20 of
clustering B hold both). -/
def one_based : two_relations where
  first := ⟨fun v => if v = 1 ∨ v = 2 then [10] else [], fun m => if m = 10 then [1, 2] else []⟩
  second := ⟨fun v => if v = 1 ∨ v = 2 then [20] else [], fun m => if m = 20 then [1, 2] else []⟩

/-- A consistent input on which the singleton fix-up makes its second
selection: in clustering A module 10 has the members 0, 1 and module 11 the one
member 0; in clustering B the modules 20 and 21 both have the members 0, 1. -/
def fixup : two_relations where
  first :=
    ⟨fun v => if v = 0 then [10, 11] else if v = 1 then [10] else [],
     fun m => if m = 10 then [0, 1] else if m = 11 then [0] else []⟩
  second :=
    ⟨fun v => if v = 0 ∨ v = 1 then [20, 21] else [],
     fun m => if m = 20 ∨ m = 21 then [0, 1] else []⟩

/-- The loop state on `fixup` when the loop is entered from vertex 0. -/
def fixup_walk : walk_state candidate_set :=
  ⟨0, [10, 11], [20, 21], spec_automaton.make [10, 11], spec_automaton.make [20, 21], 1,
    ⟨counting_stream 0, 1⟩⟩

/-- The simulator over `fixup` with the vertex ids 0, 1, built with seed 0. -/
def fixup_start : pimpl_t := pimpl_t.construct counting_stream fixup [0, 1] 0

/-- The simulator over `singles` with the vertex ids 0, 1, built with seed 0. -/
def singles_start : pimpl_t := pimpl_t.construct counting_stream singles [0, 1] 0

/-! ## Lemmas on the retry loop -/

theorem note_failure_first (r : simulation_result_t) : (note_failure r).first = r.first := by
  unfold note_failure
  split <;> rfl

theorem note_failure_of_some (r : simulation_result_t) (h : r.first ≠ RESULT_NONE) :
    note_failure r = r := by
  unfold note_failure
  rw [if_neg h]

theorem attempt_count_succ (ac : Nat) (h : ac < MAX_ACCEPTABLE_FAILURES) :
    (ac + 1) % 2 ^ 32 = ac + 1 := by
  unfold MAX_ACCEPTABLE_FAILURES at h
  exact Nat.mod_eq_of_lt (by omega)

/-- A loop entered with a result that is not "none" returns it at once. -/
theorem get_sample_loop_of_some {σ : Type}
    (attempt : σ → simulation_result_t → run (simulation_result_t × σ))
    (fuel ac : Nat) (result : simulation_result_t) (st : σ)
    (h : result.first ≠ RESULT_NONE) :
    get_sample_loop attempt fuel ac result st = .returned result st ac := by
  cases fuel <;> simp [get_sample_loop, h]

/-- One iteration whose attempt is not the last of the budget. -/
theorem get_sample_loop_step {σ : Type}
    (attempt : σ → simulation_result_t → run (simulation_result_t × σ))
    (fuel ac : Nat) (result r : simulation_result_t) (st st1 : σ)
    (h : result.first = RESULT_NONE) (ha : attempt st result = .ok (r, st1))
    (hac : ac + 1 < MAX_ACCEPTABLE_FAILURES) :
    get_sample_loop attempt (fuel + 1) ac result st
      = get_sample_loop attempt fuel (ac + 1) (note_failure r) st1 := by
  have hm : (ac + 1) % 2 ^ 32 = ac + 1 := attempt_count_succ ac (by omega)
  simp only [get_sample_loop, h, ha, hm, if_true]
  rw [if_neg (by omega)]

/-- The iteration that makes the last attempt of the budget throws, whatever
that attempt wrote. -/
theorem get_sample_loop_last {σ : Type}
    (attempt : σ → simulation_result_t → run (simulation_result_t × σ))
    (fuel ac : Nat) (result r : simulation_result_t) (st st1 : σ)
    (h : result.first = RESULT_NONE) (ha : attempt st result = .ok (r, st1))
    (hac : ac + 1 = MAX_ACCEPTABLE_FAILURES) :
    get_sample_loop attempt (fuel + 1) ac result st
      = .domain_error st1 MAX_ACCEPTABLE_FAILURES := by
  have hm : (ac + 1) % 2 ^ 32 = ac + 1 := attempt_count_succ ac (by omega)
  simp only [get_sample_loop, h, ha, hm, if_true]
  rw [if_pos (by omega), hac]

/-- After `n` failed attempts the loop is where `failures_from` says. -/
theorem get_sample_loop_failures {σ : Type}
    (attempt : σ → simulation_result_t → run (simulation_result_t × σ)) :
    ∀ (n fuel ac : Nat) (result r0 : simulation_result_t) (st s0 : σ),
      result.first = RESULT_NONE → ac + n < MAX_ACCEPTABLE_FAILURES →
      failures_from attempt n result st = some (r0, s0) →
      get_sample_loop attempt (fuel + n) ac result st
        = get_sample_loop attempt fuel (ac + n) r0 s0 ∧ r0.first = RESULT_NONE := by
  intro n
  induction n with
  | zero =>
    intro fuel ac result r0 st s0 h _ hf
    simp only [failures_from, Option.some.injEq, Prod.mk.injEq] at hf
    obtain ⟨rfl, rfl⟩ := hf
    exact ⟨rfl, h⟩
  | succ n ih =>
    intro fuel ac result r0 st s0 h hac hf
    simp only [failures_from] at hf
    cases ha : attempt st result with
    | undefined => simp [ha] at hf
    | timeout => simp [ha] at hf
    | ok b =>
      obtain ⟨r, st1⟩ := b
      simp only [ha] at hf
      by_cases hr : r.first = RESULT_NONE
      · rw [if_pos hr] at hf
        have hstep := get_sample_loop_step attempt (fuel + n) ac result r st st1 h ha (by omega)
        have hrec := ih fuel (ac + 1) (note_failure r) r0 st1 s0
          (by rw [note_failure_first]; exact hr) (by omega) hf
        refine ⟨?_, hrec.2⟩
        rw [show fuel + (n + 1) = fuel + n + 1 by omega, hstep, hrec.1]
        congr 1
        omega
      · rw [if_neg hr] at hf
        cases hf

/-- A loop that returns has seen some failed attempts and then one attempt that
did not leave "none", whose result it returns unchanged. -/
theorem get_sample_loop_returned {σ : Type}
    (attempt : σ → simulation_result_t → run (simulation_result_t × σ)) :
    ∀ (fuel ac : Nat) (result r : simulation_result_t) (st s : σ) (k : Nat),
      result.first = RESULT_NONE → ac < MAX_ACCEPTABLE_FAILURES →
      get_sample_loop attempt fuel ac result st = .returned r s k →
      ∃ n r0 s0, failures_from attempt n result st = some (r0, s0) ∧
        attempt s0 r0 = .ok (r, s) ∧ r.first ≠ RESULT_NONE ∧ k = ac + n + 1 ∧
        k < MAX_ACCEPTABLE_FAILURES := by
  intro fuel
  induction fuel with
  | zero =>
    intro ac result r st s k h _ hl
    simp [get_sample_loop, h] at hl
  | succ fuel ih =>
    intro ac result r st s k h hac hl
    cases ha : attempt st result with
    | undefined => simp [get_sample_loop, h, ha] at hl
    | timeout => simp [get_sample_loop, h, ha] at hl
    | ok b =>
      obtain ⟨r1, st1⟩ := b
      by_cases hlast : ac + 1 < MAX_ACCEPTABLE_FAILURES
      · rw [get_sample_loop_step attempt fuel ac result r1 st st1 h ha hlast] at hl
        by_cases hr : r1.first = RESULT_NONE
        · obtain ⟨n, r0, s0, hf, hcall, hne, hk, hklt⟩ :=
            ih (ac + 1) (note_failure r1) r st1 s k
              (by rw [note_failure_first]; exact hr) hlast hl
          refine ⟨n + 1, r0, s0, ?_, hcall, hne, by omega, hklt⟩
          simp only [failures_from, ha, if_pos hr]
          exact hf
        · rw [note_failure_of_some r1 hr,
            get_sample_loop_of_some attempt fuel (ac + 1) r1 st1 hr] at hl
          simp only [sample_outcome.returned.injEq] at hl
          obtain ⟨rfl, rfl, rfl⟩ := hl
          exact ⟨0, result, st, rfl, ha, hr, rfl, hlast⟩
      · rw [get_sample_loop_last attempt fuel ac result r1 st st1 h ha (by omega)] at hl
        cases hl

/-- The counting instrumentation follows the primitive it counts. -/
theorem failures_from_counted {σ : Type}
    (attempt : σ → simulation_result_t → run (simulation_result_t × σ)) :
    ∀ (n c : Nat) (result r0 : simulation_result_t) (st s0 : σ),
      failures_from attempt n result st = some (r0, s0) →
      failures_from (counted attempt) n result (st, c) = some (r0, (s0, c + n)) := by
  intro n
  induction n with
  | zero =>
    intro c result r0 st s0 hf
    simp only [failures_from, Option.some.injEq, Prod.mk.injEq] at hf
    obtain ⟨rfl, rfl⟩ := hf
    rfl
  | succ n ih =>
    intro c result r0 st s0 hf
    simp only [failures_from] at hf
    cases ha : attempt st result with
    | undefined => simp [ha] at hf
    | timeout => simp [ha] at hf
    | ok b =>
      obtain ⟨r, st1⟩ := b
      simp only [ha] at hf
      by_cases hr : r.first = RESULT_NONE
      · rw [if_pos hr] at hf
        have := ih (c + 1) (note_failure r) r0 st1 s0 hf
        simp only [failures_from, counted, ha, if_pos hr]
        rw [this]
        congr 3
        omega
      · rw [if_neg hr] at hf
        cases hf

/-- Splitting a run of failed attempts at its last attempt. -/
theorem failures_from_succ {σ : Type}
    (attempt : σ → simulation_result_t → run (simulation_result_t × σ)) :
    ∀ (n : Nat) (result r1 : simulation_result_t) (st s1 : σ),
      failures_from attempt (n + 1) result st = some (r1, s1) →
      ∃ r0 s0 r, failures_from attempt n result st = some (r0, s0) ∧
        attempt s0 r0 = .ok (r, s1) ∧ r.first = RESULT_NONE ∧ r1 = note_failure r := by
  intro n
  induction n with
  | zero =>
    intro result r1 st s1 hf
    simp only [failures_from] at hf
    cases ha : attempt st result with
    | undefined => simp [ha] at hf
    | timeout => simp [ha] at hf
    | ok b =>
      obtain ⟨r, st1⟩ := b
      simp only [ha] at hf
      by_cases hr : r.first = RESULT_NONE
      · rw [if_pos hr] at hf
        simp only [Option.some.injEq, Prod.mk.injEq] at hf
        obtain ⟨rfl, rfl⟩ := hf
        exact ⟨result, st, r, rfl, ha, hr, rfl⟩
      · rw [if_neg hr] at hf
        cases hf
  | succ n ih =>
    intro result r1 st s1 hf
    rw [failures_from] at hf
    cases ha : attempt st result with
    | undefined => simp [ha] at hf
    | timeout => simp [ha] at hf
    | ok b =>
      obtain ⟨r, st1⟩ := b
      simp only [ha] at hf
      by_cases hr : r.first = RESULT_NONE
      · rw [if_pos hr] at hf
        obtain ⟨r0, s0, r2, hf0, hcall, hnone, hr1⟩ := ih (note_failure r) r1 st1 s1 hf
        refine ⟨r0, s0, r2, ?_, hcall, hnone, hr1⟩
        rw [failures_from]
        simp only [ha, if_pos hr]
        exact hf0
      · rw [if_neg hr] at hf
        cases hf

/-- The first 1023 attempts failing is all it takes for the error: the 1024th
attempt is made and the error is raised whatever that attempt wrote. -/
theorem get_sample_with_budget {σ : Type}
    (attempt : σ → simulation_result_t → run (simulation_result_t × σ))
    (st s0 s1 : σ) (r0 r : simulation_result_t)
    (hf : failures_from attempt 1023 (simulation_result_t.fresh RESULT_NONE) st = some (r0, s0))
    (ha : attempt s0 r0 = .ok (r, s1)) :
    get_sample_with attempt st = .domain_error s1 MAX_ACCEPTABLE_FAILURES := by
  have h := get_sample_loop_failures attempt 1023 1 0 (simulation_result_t.fresh RESULT_NONE)
    r0 st s0 rfl (by decide) hf
  unfold get_sample_with
  rw [show MAX_ACCEPTABLE_FAILURES = 1 + 1023 by rfl, h.1]
  exact get_sample_loop_last attempt 0 (0 + 1023) r0 r s0 s1 h.2 ha rfl

/-- A run of failed attempts along a known sequence of states. -/
theorem failures_from_states {σ : Type}
    (attempt : σ → simulation_result_t → run (simulation_result_t × σ)) (f : Nat → σ) (n : Nat)
    (h : ∀ k, k < n → ∀ r, ∃ r1, attempt (f k) r = .ok (r1, f (k + 1)) ∧ r1.first = RESULT_NONE) :
    ∀ (m k : Nat) (result : simulation_result_t), k + m ≤ n →
      ∃ r0, failures_from attempt m result (f k) = some (r0, f (k + m)) := by
  intro m
  induction m with
  | zero =>
    intro k result _
    exact ⟨result, rfl⟩
  | succ m ih =>
    intro k result hk
    obtain ⟨r1, ha, hr⟩ := h k (by omega) result
    obtain ⟨r0, hf⟩ := ih (k + 1) (note_failure r1) (by omega)
    refine ⟨r0, ?_⟩
    simp only [failures_from, ha, if_pos hr]
    rw [hf]
    congr 3
    omega

/-- On Scenario B an attempt that draws vertex 1 fails after that one draw. -/
theorem scenario_B_attempt_fails (raw : Nat → Nat) (k : Nat) (h : raw k % 2 = 1)
    (r : simulation_result_t) :
    try_get_sample spec_automaton (scenario_B_state raw k) r
      = .ok (⟨RESULT_NONE, RESULT_NONE, 1, r.failed_attempts⟩, scenario_B_state raw (k + 1)) := by
  simp [try_get_sample, scenario_B_state, lindis, h, start_vertex, get_modules, scenario_B,
    hop_loop, loop_cond, spec_automaton, conclude]

/-- On Scenario B an attempt that draws vertex 0 succeeds after that one
draw. -/
theorem scenario_B_attempt_succeeds (raw : Nat → Nat) (k : Nat) (h : raw k % 2 = 0)
    (r : simulation_result_t) :
    try_get_sample spec_automaton (scenario_B_state raw k) r
      = .ok (⟨10, 20, 1, r.failed_attempts⟩, scenario_B_state raw (k + 1)) := by
  simp [try_get_sample, scenario_B_state, lindis, h, start_vertex, get_modules, scenario_B,
    hop_loop, loop_cond, spec_automaton, conclude]

/-- Failed attempts followed by an attempt that does not leave "none", all
within the first 1023 attempts: the sample of that attempt is returned. -/
theorem get_sample_with_of_failures {σ : Type}
    (attempt : σ → simulation_result_t → run (simulation_result_t × σ))
    (st s0 s1 : σ) (n : Nat) (r0 r : simulation_result_t)
    (hf : failures_from attempt n (simulation_result_t.fresh RESULT_NONE) st = some (r0, s0))
    (ha : attempt s0 r0 = .ok (r, s1)) (hr : r.first ≠ RESULT_NONE)
    (hn : n + 1 < MAX_ACCEPTABLE_FAILURES) :
    get_sample_with attempt st = .returned r s1 (n + 1) := by
  have hn1 : n + 1 < 1024 := hn
  have h := get_sample_loop_failures attempt n (1023 - n + 1) 0
    (simulation_result_t.fresh RESULT_NONE) r0 st s0 rfl (by omega) hf
  unfold get_sample_with
  rw [show MAX_ACCEPTABLE_FAILURES = 1023 - n + 1 + n by
    unfold MAX_ACCEPTABLE_FAILURES; omega, h.1,
    get_sample_loop_step attempt (1023 - n) (0 + n) r0 r s0 s1 h.2 ha (by omega),
    note_failure_of_some r hr, get_sample_loop_of_some attempt _ _ r s1 hr]
  congr 1
  omega

/-- On Scenario B with the stream `retry_stream`, `get_sample` returns after
three attempts. -/
theorem scenario_B_retry_run :
    ∃ r, get_sample spec_automaton (scenario_B_state retry_stream 0)
      = .returned r (scenario_B_state retry_stream 3) 3 := by
  obtain ⟨r0, hf⟩ := failures_from_states (try_get_sample spec_automaton)
    (scenario_B_state retry_stream) 2
    (fun k hk r => ⟨_, scenario_B_attempt_fails retry_stream k (by simp [retry_stream, hk]) r,
      rfl⟩)
    2 0 (simulation_result_t.fresh RESULT_NONE) (by omega)
  exact ⟨_, get_sample_with_of_failures (try_get_sample spec_automaton) _ _ _ 2 r0 _
    (by simpa using hf)
    (scenario_B_attempt_succeeds retry_stream 2 (by simp [retry_stream]) r0)
    (by simp [RESULT_NONE]) (by decide)⟩

/-! ## The retry loop: claims C1 to C4 -/

/-- C1 (evaluation at the failing input): on the outcome sequence
`late_outcomes`, whose first 1023 attempts fail and whose attempt number 1024
succeeds with the pair (10, 20), `get_sample` makes the 1024 calls and then
raises the domain error instead of returning that pair. -/
theorem get_sample_throws_when_last_attempt_succeeds :
    (late_outcomes 1023).1 ≠ RESULT_NONE ∧
    get_sample_with (replay late_outcomes) 0 = .domain_error 1024 1024 := by
  refine ⟨by decide, ?_⟩
  obtain ⟨r0, hf⟩ := failures_from_states (replay late_outcomes) (fun k => k) 1023
    (fun k hk r => ⟨⟨RESULT_NONE, RESULT_NONE, 1, r.failed_attempts⟩, by
      simp [replay, late_outcomes, hk], rfl⟩)
    1023 0 (simulation_result_t.fresh RESULT_NONE) (by omega)
  exact get_sample_with_budget (replay late_outcomes) 0 1023 1024 r0
    ⟨(late_outcomes 1023).1, (late_outcomes 1023).2, 1, r0.failed_attempts⟩
    (by simpa using hf) rfl

/-- The same run on a concrete simulator (automaton of the spec, Scenario B,
a stream that selects vertex 1 for 1023 draws and vertex 0 afterwards): the
attempt number 1024 succeeds with the pair (10, 20), and `get_sample` raises
the domain error. -/
theorem get_sample_scenario_B_late_success :
    (∀ r, try_get_sample spec_automaton (scenario_B_state late_stream 1023) r
      = .ok (⟨10, 20, 1, r.failed_attempts⟩, scenario_B_state late_stream 1024)) ∧
    get_sample spec_automaton (scenario_B_state late_stream 0)
      = .domain_error (scenario_B_state late_stream 1024) 1024 := by
  have hlast : ∀ r, try_get_sample spec_automaton (scenario_B_state late_stream 1023) r
      = .ok (⟨10, 20, 1, r.failed_attempts⟩, scenario_B_state late_stream 1024) :=
    fun r => scenario_B_attempt_succeeds late_stream 1023 (by simp [late_stream]) r
  refine ⟨hlast, ?_⟩
  obtain ⟨r0, hf⟩ := failures_from_states (try_get_sample spec_automaton)
    (scenario_B_state late_stream) 1023
    (fun k hk r => ⟨_, scenario_B_attempt_fails late_stream k (by simp [late_stream, hk]) r, rfl⟩)
    1023 0 (simulation_result_t.fresh RESULT_NONE) (by omega)
  exact get_sample_with_budget (try_get_sample spec_automaton) _ _ _ r0 _
    (by simpa using hf) (hlast r0)

/-- C2: whenever `get_sample` returns, after `k` attempts, the returned sample
is not the "none" sentinel (`first` differs from `RESULT_NONE`), the `k - 1`
calls of `try_get_sample` before the last one all left
`result.first == RESULT_NONE`, and the returned sample is exactly what the last
call wrote, that call being the first that did not leave "none". -/
theorem get_sample_returns_last_attempt {α : Type} (A : player_automaton α)
    (p p1 : pimpl_t) (r : simulation_result_t) (k : Nat)
    (h : get_sample A p = .returned r p1 k) :
    r.first ≠ RESULT_NONE ∧ 1 ≤ k ∧ k < MAX_ACCEPTABLE_FAILURES ∧
    ∃ r0 p0, failures_from (try_get_sample A) (k - 1)
        (simulation_result_t.fresh RESULT_NONE) p = some (r0, p0) ∧
      try_get_sample A p0 r0 = .ok (r, p1) := by
  obtain ⟨n, r0, s0, hf, hcall, hne, hk, hklt⟩ :=
    get_sample_loop_returned (try_get_sample A) MAX_ACCEPTABLE_FAILURES 0
      (simulation_result_t.fresh RESULT_NONE) r p p1 k rfl (by decide) h
  refine ⟨hne, by omega, hklt, r0, s0, ?_, hcall⟩
  rw [show k - 1 = n by omega]
  exact hf

/-- C4: when the first 1024 calls of the single-attempt primitive all leave
`result.first == RESULT_NONE`, `get_sample` raises the domain error in the
state that exactly 1024 calls leave behind: the call counter reads 1024, and
no sample is returned. -/
theorem get_sample_all_attempts_fail {σ : Type}
    (attempt : σ → simulation_result_t → run (simulation_result_t × σ))
    (st s0 : σ) (r0 : simulation_result_t)
    (hf : failures_from attempt 1024 (simulation_result_t.fresh RESULT_NONE) st = some (r0, s0)) :
    get_sample_with (counted attempt) (st, 0) = .domain_error (s0, 1024) 1024 ∧
    get_sample_with attempt st = .domain_error s0 1024 := by
  obtain ⟨r1, s1, r, hf1, hcall, _, _⟩ :=
    failures_from_succ attempt 1023 (simulation_result_t.fresh RESULT_NONE) r0 st s0 hf
  have hfc := failures_from_counted attempt 1023 0 (simulation_result_t.fresh RESULT_NONE)
    r1 st s1 hf1
  constructor
  · exact get_sample_with_budget (counted attempt) (st, 0) (s1, 0 + 1023) (s0, 1024) r1 r hfc
      (by simp [counted, hcall])
  · exact get_sample_with_budget attempt st s1 s0 r1 r hf1 hcall

/-- Witness of C2: Scenario B with a stream that selects vertex 1 twice and
then vertex 0; the third attempt is the one whose sample is returned. -/
theorem get_sample_returns_last_attempt_witness :
    ∃ r p1, get_sample spec_automaton (scenario_B_state retry_stream 0) = .returned r p1 3 ∧
      (r.first ≠ RESULT_NONE ∧ 1 ≤ 3 ∧ 3 < MAX_ACCEPTABLE_FAILURES ∧
        ∃ r0 p0, failures_from (try_get_sample spec_automaton) (3 - 1)
            (simulation_result_t.fresh RESULT_NONE) (scenario_B_state retry_stream 0)
              = some (r0, p0) ∧
          try_get_sample spec_automaton p0 r0 = .ok (r, p1)) := by
  obtain ⟨r, h⟩ := scenario_B_retry_run
  exact ⟨r, _, h, get_sample_returns_last_attempt spec_automaton _ _ r 3 h⟩

/-- Witness of C4: Scenario B with a stream that always selects vertex 1, the
vertex without a module in clustering B. -/
theorem get_sample_all_attempts_fail_witness :
    ∃ r0, failures_from (try_get_sample spec_automaton) 1024
        (simulation_result_t.fresh RESULT_NONE) (scenario_B_state (fun _ => 1) 0)
          = some (r0, scenario_B_state (fun _ => 1) 1024) ∧
      (get_sample_with (counted (try_get_sample spec_automaton))
          (scenario_B_state (fun _ => 1) 0, 0)
          = .domain_error (scenario_B_state (fun _ => 1) 1024, 1024) 1024 ∧
        get_sample_with (try_get_sample spec_automaton) (scenario_B_state (fun _ => 1) 0)
          = .domain_error (scenario_B_state (fun _ => 1) 1024) 1024) := by
  obtain ⟨r0, hf⟩ := failures_from_states (try_get_sample spec_automaton)
    (scenario_B_state (fun _ => 1)) 1024
    (fun k _ r => ⟨_, scenario_B_attempt_fails (fun _ => 1) k rfl r, rfl⟩)
    1024 0 (simulation_result_t.fresh RESULT_NONE) (by omega)
  have hf1 : failures_from (try_get_sample spec_automaton) 1024
      (simulation_result_t.fresh RESULT_NONE) (scenario_B_state (fun _ => 1) 0)
        = some (r0, scenario_B_state (fun _ => 1) 1024) := by simpa using hf
  exact ⟨r0, hf1, get_sample_all_attempts_fail (try_get_sample spec_automaton) _ _ r0 hf1⟩

/-! ## Liveness: claim C5 -/

/-- The bound of the distribution of a simulator over `n` vertices, for
`n` from 1 to `2 ^ 32`. -/
theorem lindis_max_succ (n : Nat) (h1 : 1 ≤ n) (h2 : n ≤ 2 ^ 32) : lindis_max n + 1 = n := by
  unfold lindis_max
  omega

/-- An attempt on an input whose vertices all have one module in each
clustering: the automatons are decided when seeded, no hop is made, and the
pair of the two modules of the drawn vertex is written. -/
theorem attempt_single_membership {α : Type} (A : player_automaton α) (p : pimpl_t)
    (hmake : ∀ m, A.get_status (A.make [m]) = pa_status_t.SUCCESS ∧
      A.get_a_module (A.make [m]) = m)
    (hgoing : A.going pa_status_t.SUCCESS pa_status_t.SUCCESS = false)
    (hverts : p.verts ≠ []) (hlen : p.verts.length ≤ 2 ^ 32)
    (hb : p.lindis = lindis_max p.verts.length)
    (hone : ∀ v ∈ p.verts, ∃ a b, p.tworel.first.left v = [a] ∧ p.tworel.second.left v = [b] ∧
      a ≠ RESULT_NONE) :
    ∃ v a b, v ∈ p.verts ∧ p.tworel.first.left v = [a] ∧ p.tworel.second.left v = [b] ∧
      a ≠ RESULT_NONE ∧
      ∀ r, try_get_sample A p r
        = .ok (⟨a, b, 1, r.failed_attempts⟩,
            ⟨p.tworel, ⟨p.rndgen.raw, p.rndgen.pos + 1⟩, p.lindis, p.verts⟩) := by
  have hpos : 1 ≤ p.verts.length := by
    cases hvs : p.verts with
    | nil => exact absurd hvs hverts
    | cons x xs => simp
  have hi : p.rndgen.raw p.rndgen.pos % (p.lindis + 1) < p.verts.length := by
    rw [hb, lindis_max_succ _ hpos hlen]
    exact Nat.mod_lt _ hpos
  have hget : p.verts[p.rndgen.raw p.rndgen.pos % (p.lindis + 1)]?
      = some (p.verts[p.rndgen.raw p.rndgen.pos % (p.lindis + 1)]) :=
    List.getElem?_eq_getElem hi
  obtain ⟨a, b, ha, hb2, hne⟩ := hone _ (List.getElem_mem hi)
  refine ⟨_, a, b, List.getElem_mem hi, ha, hb2, hne, ?_⟩
  intro r
  unfold try_get_sample
  simp only [lindis, hget]
  have hsv : start_vertex p.tworel (p.verts[p.rndgen.raw p.rndgen.pos % (p.lindis + 1)])
      = (p.verts[p.rndgen.raw p.rndgen.pos % (p.lindis + 1)], [a], [b]) := by
    simp [start_vertex, get_modules, ha, hb2]
  rw [hsv]
  simp [hop_loop, loop_cond, hmake, hgoing, conclude]

/-- Scenario A, for every stream: `get_sample` returns at its first attempt
one of the pairs (10, 20), (10, 21), (11, 20), (11, 21). -/
theorem scenario_A_get_sample (raw : Nat → Nat) (k : Nat) :
    ∃ a b, (a = 10 ∨ a = 11) ∧ (b = 20 ∨ b = 21) ∧
      get_sample spec_automaton ⟨scenario_A, ⟨raw, k⟩, 3, [0, 1, 2, 3]⟩
        = .returned ⟨a, b, 1, 0⟩ ⟨scenario_A, ⟨raw, k + 1⟩, 3, [0, 1, 2, 3]⟩ 1 := by
  have hone : ∀ v ∈ [0, 1, 2, 3], ∃ a b, scenario_A.first.left v = [a] ∧
      scenario_A.second.left v = [b] ∧ a ≠ RESULT_NONE := by
    intro v hv
    simp only [List.mem_cons, List.mem_singleton, List.not_mem_nil, or_false] at hv
    rcases hv with rfl | rfl | rfl | rfl
    · exact ⟨10, 20, rfl, rfl, by decide⟩
    · exact ⟨10, 21, rfl, rfl, by decide⟩
    · exact ⟨11, 20, rfl, rfl, by decide⟩
    · exact ⟨11, 21, rfl, rfl, by decide⟩
  obtain ⟨v, a, b, hv, ha, hb2, hne, htry⟩ :=
    attempt_single_membership spec_automaton ⟨scenario_A, ⟨raw, k⟩, 3, [0, 1, 2, 3]⟩
      (fun _ => ⟨rfl, rfl⟩) rfl (by simp) (by simp)
      (by show 3 = lindis_max 4; decide) hone
  refine ⟨a, b, ?_, ?_, get_sample_with_of_failures (try_get_sample spec_automaton) _ _ _ 0 _ _
    rfl (htry (simulation_result_t.fresh RESULT_NONE)) hne (by decide)⟩
  · simp only [List.mem_cons, List.mem_singleton, List.not_mem_nil, or_false] at hv
    rcases hv with rfl | rfl | rfl | rfl <;> simp [scenario_A] at ha <;> omega
  · simp only [List.mem_cons, List.mem_singleton, List.not_mem_nil, or_false] at hv
    rcases hv with rfl | rfl | rfl | rfl <;> simp [scenario_A] at hb2 <;> omega

/-! ## Determinism and fork: claims C6 and C7 -/

/-- C7: for a simulator whose implementation handle is live, `fork` yields a
new instance over the same relation pair and the same vertex set, whose
`vertices_num` equals the parent's, and leaves the parent as it was. -/
theorem fork_preserves_vertices (mt19937 : Nat → Nat → Nat) (rd : Nat)
    (d : deep_complete_simulator) (p : pimpl_t) (h : d.impl = some p) :
    ∃ q, d.fork mt19937 rd = some (d, ⟨some q⟩) ∧
      q.tworel = p.tworel ∧ q.verts = p.verts ∧
      (deep_complete_simulator.mk (some q)).vertices_num = d.vertices_num ∧
      d.vertices_num = p.verts.length := by
  refine ⟨pimpl_t.construct mt19937 p.tworel p.verts rd, ?_, rfl, rfl, ?_, ?_⟩
  · simp [deep_complete_simulator.fork, h]
  · simp [deep_complete_simulator.vertices_num, h, pimpl_t.construct]
  · simp [deep_complete_simulator.vertices_num, h]

/-- Witness of C7: forking a simulator over Scenario A. -/
theorem fork_preserves_vertices_witness :
    ∃ q, (deep_complete_simulator.mk
        (some (pimpl_t.construct counting_stream scenario_A [0, 1, 2, 3] 5))).fork
          counting_stream 7
        = some (⟨some (pimpl_t.construct counting_stream scenario_A [0, 1, 2, 3] 5)⟩,
            ⟨some q⟩) ∧
      q.tworel = (pimpl_t.construct counting_stream scenario_A [0, 1, 2, 3] 5).tworel ∧
      q.verts = (pimpl_t.construct counting_stream scenario_A [0, 1, 2, 3] 5).verts ∧
      (deep_complete_simulator.mk (some q)).vertices_num
        = (deep_complete_simulator.mk
            (some (pimpl_t.construct counting_stream scenario_A [0, 1, 2, 3] 5))).vertices_num ∧
      (deep_complete_simulator.mk
          (some (pimpl_t.construct counting_stream scenario_A [0, 1, 2, 3] 5))).vertices_num
        = (pimpl_t.construct counting_stream scenario_A [0, 1, 2, 3] 5).verts.length :=
  fork_preserves_vertices counting_stream 7
    ⟨some (pimpl_t.construct counting_stream scenario_A [0, 1, 2, 3] 5)⟩
    (pimpl_t.construct counting_stream scenario_A [0, 1, 2, 3] 5) rfl

/-! ## Lemmas on one hop -/

/-- The set chosen for a hop is the set of the side the flag names. -/
theorem choose_side_v2bms (iv2 : Nat) (rm1 rm2 : List Nat) :
    (choose_side iv2 rm1 rm2).v2bms
      = if (choose_side iv2 rm1 rm2).v2first then rm1 else rm2 := by
  unfold choose_side
  by_cases h : iv2 % 2 = 0 <;> cases rm1 <;> cases rm2 <;> simp [h]

/-- What the source reads as the other side's set, after the moves, is the
other side's set of the current vertex. -/
theorem choose_side_other (iv2 : Nat) (rm1 rm2 : List Nat) :
    (if (choose_side iv2 rm1 rm2).v2first then (choose_side iv2 rm1 rm2).rm2
      else (choose_side iv2 rm1 rm2).rm1)
      = if (choose_side iv2 rm1 rm2).v2first then rm2 else rm1 := by
  unfold choose_side
  by_cases h : iv2 % 2 = 0 <;> cases rm1 <;> cases rm2 <;> simp [h]

/-- A dereference after `advance` by `i % size()` succeeds exactly on a
non-empty container, and yields the element at that position. -/
theorem nth_mod_eq_some (xs : List Nat) (i x : Nat) :
    nth_mod xs i = some x ↔ xs.length ≠ 0 ∧ xs[i % xs.length]? = some x := by
  unfold nth_mod
  by_cases h : xs.length = 0 <;> simp [h]

/-- One iteration of the hop loop whose condition holds. -/
theorem hop_loop_enter {α : Type} (A : player_automaton α) (tworel : two_relations)
    (b attempts fuel : Nat) (s : walk_state α) (h : loop_cond A attempts s = true) :
    hop_loop A tworel b attempts (fuel + 1) s
      = match hop A tworel s.vertex s.rm1 s.rm2 s.pa1 s.pa2 (lindis b s.rndgen).1
            (s.used_vertex_index + 1) with
        | .adopted v rm1 rm2 pa1 pa2 =>
          hop_loop A tworel b attempts fuel
            ⟨v, rm1, rm2, pa1, pa2, s.used_vertex_index + 1, (lindis b s.rndgen).2⟩
        | .invalidated_read => .undefined
        | .dead_end => .finished s.pa1 s.pa2 (lindis b s.rndgen).2
        | .undefined => .undefined := by
  simp only [hop_loop, h, if_true]

/-- The hop once the module and the candidate are known. -/
theorem hop_of_candidate {α : Type} (A : player_automaton α) (tworel : two_relations)
    (vertex : Nat) (rm1 rm2 : List Nat) (pa1 pa2 : α) (iv2 uvi m v : Nat)
    (hm : nth_mod (if (choose_side iv2 rm1 rm2).v2first then rm1 else rm2) iv2 = some m)
    (hv : nth_mod ((if (choose_side iv2 rm1 rm2).v2first then tworel.first
        else tworel.second).right m) (iv2 + uvi) = some v) :
    hop A tworel vertex rm1 rm2 pa1 pa2 iv2 uvi
      = if v = vertex then
          match ((if (choose_side iv2 rm1 rm2).v2first then tworel.first
              else tworel.second).right m)[wrap_next
                ((if (choose_side iv2 rm1 rm2).v2first then tworel.first
                  else tworel.second).right m).length
                ((iv2 + uvi) % ((if (choose_side iv2 rm1 rm2).v2first then tworel.first
                  else tworel.second).right m).length)]? with
          | none => .undefined
          | some v2 =>
            if v2 = vertex then
              singleton_branch A tworel vertex pa1 pa2 iv2 uvi (choose_side iv2 rm1 rm2) m
            else adopt A tworel pa1 pa2 iv2 uvi v2
        else adopt A tworel pa1 pa2 iv2 uvi v := by
  rw [← choose_side_v2bms] at hm
  obtain ⟨hlen, hget⟩ := (nth_mod_eq_some _ _ _).1 hv
  unfold hop
  simp only [hm, hlen, if_false, hget]

/-- The singleton branch when the other side's set holds a module with one
member: the source reaches the write of the pair, whose read of `*iv2mod` is
through the invalidated iterator. -/
theorem singleton_branch_fallback {α : Type} (A : player_automaton α) (tworel : two_relations)
    (vertex : Nat) (rm1 rm2 : List Nat) (pa1 pa2 : α) (iv2 uvi m w : Nat)
    (hw : nth_mod ((if (choose_side iv2 rm1 rm2).v2first then rm2 else rm1).filter
        (fun v2mod => decide (((if (choose_side iv2 rm1 rm2).v2first then tworel.second
          else tworel.first).right v2mod).length = 1))) (iv2 + uvi) = some w) :
    singleton_branch A tworel vertex pa1 pa2 iv2 uvi (choose_side iv2 rm1 rm2) m
      = .invalidated_read := by
  obtain ⟨hlen, hget⟩ := (nth_mod_eq_some _ _ _).1 hw
  have hne : ((if (choose_side iv2 rm1 rm2).v2first then rm2 else rm1).filter
      (fun v2mod => decide (((if (choose_side iv2 rm1 rm2).v2first then tworel.second
        else tworel.first).right v2mod).length = 1))) ≠ [] := by
    intro h
    rw [h] at hlen
    exact hlen rfl
  have hother : (if (choose_side iv2 rm1 rm2).v2first then rm2 else rm1) ≠ [] := by
    intro h
    rw [h] at hne
    exact hne rfl
  unfold singleton_branch
  simp only [choose_side_other, List.isEmpty_iff, hother, hne, if_false, hget]

/-- The singleton branch when the other side's set is empty. -/
theorem singleton_branch_dead_end {α : Type} (A : player_automaton α) (tworel : two_relations)
    (vertex : Nat) (rm1 rm2 : List Nat) (pa1 pa2 : α) (iv2 uvi m : Nat)
    (hother : (if (choose_side iv2 rm1 rm2).v2first then rm2 else rm1) = []) :
    singleton_branch A tworel vertex pa1 pa2 iv2 uvi (choose_side iv2 rm1 rm2) m
      = .dead_end := by
  unfold singleton_branch
  simp only [choose_side_other, hother, List.isEmpty_nil, if_true]

/-- An element picked by position is an element of the container. -/
theorem nth_mod_mem (xs : List Nat) (i x : Nat) (h : nth_mod xs i = some x) : x ∈ xs := by
  obtain ⟨_, hget⟩ := (nth_mod_eq_some xs i x).1 h
  exact List.getElem?_mem hget

/-! ## The fuel suffices -/

/-- An attempt that runs into undefined behaviour leaves the retry loop
undefined. -/
theorem get_sample_loop_undefined {σ : Type}
    (attempt : σ → simulation_result_t → run (simulation_result_t × σ))
    (fuel ac : Nat) (result : simulation_result_t) (st : σ)
    (h : result.first = RESULT_NONE) (ha : attempt st result = .undefined) :
    get_sample_loop attempt (fuel + 1) ac result st = .undefined := by
  simp only [get_sample_loop, h, ha, if_true]

/-- The hop loop does not run out of fuel when the fuel covers what is left of
the hop budget. -/
theorem hop_loop_fuel {α : Type} (A : player_automaton α) (tworel : two_relations)
    (b attempts : Nat) :
    ∀ (fuel : Nat) (s : walk_state α), attempts ≤ s.used_vertex_index + fuel →
      hop_loop A tworel b attempts fuel s ≠ .timeout := by
  intro fuel
  induction fuel with
  | zero =>
    intro s hfuel
    have hc : loop_cond A attempts s = false := by
      simp only [loop_cond, Bool.and_eq_false_imp, decide_eq_false_iff_not]
      intro _
      omega
    simp [hop_loop, hc]
  | succ fuel ih =>
    intro s hfuel
    by_cases hc : loop_cond A attempts s = true
    · rw [hop_loop_enter A tworel b attempts fuel s hc]
      split
      · exact ih _ (by simp only; omega)
      · simp
      · simp
      · simp
    · simp [hop_loop, hc]

/-- An attempt does not run out of fuel. -/
theorem attempt_fuel_suffices {α : Type} (A : player_automaton α) (p : pimpl_t)
    (result : simulation_result_t) : try_get_sample A p result ≠ .timeout := by
  unfold try_get_sample
  simp only
  split
  · simp
  · intro h
    revert h
    have hl := hop_loop_fuel A p.tworel p.lindis
    generalize hatt : (_ + _) * 2 = attempts
    intro h
    generalize he : hop_loop A p.tworel p.lindis attempts attempts _ = e at h
    cases e with
    | finished pa1 pa2 g =>
      simp only [conclude] at h
      split at h <;> cases h
    | undefined => simp [conclude] at h
    | timeout => exact hl attempts attempts _ (by simp only; omega) he

/-- C8 (counterexample): on `shared_ids`, at vertex 0 with draw 1 and hop
count 2, the hop selects module 2 of clustering A and adopts vertex 1, the
member at position 3 mod 2 of that module in clustering A; the member at that
position in the backward view of the other clustering is vertex 2. -/
theorem hop_candidate_not_in_other_view :
    hop spec_automaton shared_ids 0 [1, 2] [1, 2] (spec_automaton.make [1, 2])
        (spec_automaton.make [1, 2]) 1 2
      = .adopted 1 [1, 2] [] ⟨[1, 2], true⟩ ⟨[], true⟩ ∧
    candidate_in_other_view shared_ids [1, 2] [1, 2] 1 2 = some 2 := by
  constructor
  · simp [hop, choose_side, nth_mod, wrap_next, adopt, get_modules, shared_ids, spec_automaton]
  · simp [candidate_in_other_view, choose_side, nth_mod, shared_ids]

/-- C8 (amended): in a hop (the loop body entered at state `s`, with draw
`iv2` and `uvi` the incremented `used_vertex_index`), let `side` name the
clustering that supplies the module set, `m` the selected module and `v` the
member at position `(iv2 + uvi)` modulo the range length of the member range
of `m` in the backward view of that same clustering.  When `v` is not the
current vertex the hop adopts `v`; when it is, and its wrapped successor `v2`
in the same range is not, the hop adopts `v2`. -/
theorem hop_candidate_same_clustering {α : Type} (A : player_automaton α)
    (tworel : two_relations) (b attempts fuel : Nat) (s : walk_state α)
    (iv2 uvi : Nat) (side : Bool) (m v : Nat)
    (hcond : loop_cond A attempts s = true)
    (hiv2 : iv2 = (lindis b s.rndgen).1)
    (huvi : uvi = s.used_vertex_index + 1)
    (hside : side = (choose_side iv2 s.rm1 s.rm2).v2first)
    (hm : nth_mod (if side then s.rm1 else s.rm2) iv2 = some m)
    (hv : nth_mod ((if side then tworel.first else tworel.second).right m) (iv2 + uvi)
      = some v) :
    (v ≠ s.vertex →
      hop_loop A tworel b attempts (fuel + 1) s
        = hop_loop A tworel b attempts fuel
            ⟨v, tworel.first.left v, tworel.second.left v,
              A.take_set (tworel.first.left v)
                (A.set_operation_kind (decide ((iv2 + uvi) % 2 ≠ 0)) s.pa1),
              A.take_set (tworel.second.left v)
                (A.set_operation_kind (decide ((iv2 + uvi) % 2 ≠ 0)) s.pa2),
              uvi, (lindis b s.rndgen).2⟩) ∧
    (∀ v2, v = s.vertex →
      ((if side then tworel.first else tworel.second).right m)[wrap_next
          ((if side then tworel.first else tworel.second).right m).length
          ((iv2 + uvi) % ((if side then tworel.first else tworel.second).right m).length)]?
        = some v2 →
      v2 ≠ s.vertex →
      hop_loop A tworel b attempts (fuel + 1) s
        = hop_loop A tworel b attempts fuel
            ⟨v2, tworel.first.left v2, tworel.second.left v2,
              A.take_set (tworel.first.left v2)
                (A.set_operation_kind (decide ((iv2 + uvi) % 2 ≠ 0)) s.pa1),
              A.take_set (tworel.second.left v2)
                (A.set_operation_kind (decide ((iv2 + uvi) % 2 ≠ 0)) s.pa2),
              uvi, (lindis b s.rndgen).2⟩) := by
  subst hside
  have hhop := hop_of_candidate A tworel s.vertex s.rm1 s.rm2 s.pa1 s.pa2 iv2 uvi m v hm hv
  rw [hop_loop_enter A tworel b attempts fuel s hcond, ← hiv2, ← huvi, hhop]
  constructor
  · intro hne
    simp only [if_neg hne, adopt, get_modules]
  · intro v2 heq hv2 hne2
    simp only [if_pos heq, hv2, if_neg hne2, adopt, get_modules]

/-- Witness of C8 (amended): the first hop of an attempt on `overlap` from
vertex 0, with draw 1: module 11 of clustering A is selected and vertex 1, its
member at position 3 mod 2, is adopted. -/
theorem hop_candidate_same_clustering_witness :
    (1 ≠ (⟨0, [10, 11], [20, 21], ⟨[10, 11], true⟩, ⟨[20, 21], true⟩, 1,
        ⟨counting_stream 0, 1⟩⟩ : walk_state candidate_set).vertex →
      hop_loop spec_automaton overlap 1 8 (7 + 1)
          ⟨0, [10, 11], [20, 21], ⟨[10, 11], true⟩, ⟨[20, 21], true⟩, 1, ⟨counting_stream 0, 1⟩⟩
        = hop_loop spec_automaton overlap 1 8 7
            ⟨1, overlap.first.left 1, overlap.second.left 1,
              spec_automaton.take_set (overlap.first.left 1)
                (spec_automaton.set_operation_kind (decide ((1 + 2) % 2 ≠ 0)) ⟨[10, 11], true⟩),
              spec_automaton.take_set (overlap.second.left 1)
                (spec_automaton.set_operation_kind (decide ((1 + 2) % 2 ≠ 0)) ⟨[20, 21], true⟩),
              2, (lindis 1 ⟨counting_stream 0, 1⟩).2⟩) ∧
    (∀ v2, 1 = (⟨0, [10, 11], [20, 21], ⟨[10, 11], true⟩, ⟨[20, 21], true⟩, 1,
        ⟨counting_stream 0, 1⟩⟩ : walk_state candidate_set).vertex →
      ((if true then overlap.first else overlap.second).right 11)[wrap_next
          ((if true then overlap.first else overlap.second).right 11).length
          ((1 + 2) % ((if true then overlap.first else overlap.second).right 11).length)]?
        = some v2 →
      v2 ≠ (⟨0, [10, 11], [20, 21], ⟨[10, 11], true⟩, ⟨[20, 21], true⟩, 1,
        ⟨counting_stream 0, 1⟩⟩ : walk_state candidate_set).vertex →
      hop_loop spec_automaton overlap 1 8 (7 + 1)
          ⟨0, [10, 11], [20, 21], ⟨[10, 11], true⟩, ⟨[20, 21], true⟩, 1, ⟨counting_stream 0, 1⟩⟩
        = hop_loop spec_automaton overlap 1 8 7
            ⟨v2, overlap.first.left v2, overlap.second.left v2,
              spec_automaton.take_set (overlap.first.left v2)
                (spec_automaton.set_operation_kind (decide ((1 + 2) % 2 ≠ 0)) ⟨[10, 11], true⟩),
              spec_automaton.take_set (overlap.second.left v2)
                (spec_automaton.set_operation_kind (decide ((1 + 2) % 2 ≠ 0)) ⟨[20, 21], true⟩),
              2, (lindis 1 ⟨counting_stream 0, 1⟩).2⟩) :=
  hop_candidate_same_clustering spec_automaton overlap 1 8 7
    ⟨0, [10, 11], [20, 21], ⟨[10, 11], true⟩, ⟨[20, 21], true⟩, 1, ⟨counting_stream 0, 1⟩⟩
    1 2 true 11 1 (by decide) (by decide) rfl (by decide) (by decide) (by decide)

/-- C9 (divergence): in a hop (the loop body entered at state `s`, with draw
`iv2` and `uvi` the incremented `used_vertex_index`) where the candidate and
its wrapped successor in the member range of the selected module `m` are both
the current vertex, and the other side's set holds modules whose backward
range has one member, `w` being the one at position `(iv2 + uvi)` modulo their
number, the source goes to the write of the pair (lines 189 to 196) without
applying an automaton operation, and there it reads `*iv2mod` through the
iterator that the move-assignment of line 174 has invalidated: the hop ends in
that read, so the loop and what is written into `result` are undefined, and no
pair of `m` and `w` is returned in a defined way.  `m` is a module of the
selected side's set, `w` a module of the other side's set with one member. -/
theorem singleton_fallback_reads_invalidated_iterator {α : Type} (A : player_automaton α)
    (tworel : two_relations) (b attempts fuel : Nat) (s : walk_state α)
    (iv2 uvi : Nat) (side : Bool) (m w : Nat) (p : pimpl_t) (r : simulation_result_t)
    (hcond : loop_cond A attempts s = true)
    (hiv2 : iv2 = (lindis b s.rndgen).1)
    (huvi : uvi = s.used_vertex_index + 1)
    (hside : side = (choose_side iv2 s.rm1 s.rm2).v2first)
    (hm : nth_mod (if side then s.rm1 else s.rm2) iv2 = some m)
    (hcand : nth_mod ((if side then tworel.first else tworel.second).right m) (iv2 + uvi)
      = some s.vertex)
    (hsucc : ((if side then tworel.first else tworel.second).right m)[wrap_next
          ((if side then tworel.first else tworel.second).right m).length
          ((iv2 + uvi) % ((if side then tworel.first else tworel.second).right m).length)]?
        = some s.vertex)
    (hw : nth_mod ((if side then s.rm2 else s.rm1).filter
        (fun v2mod => decide (((if side then tworel.second else tworel.first).right
          v2mod).length = 1))) (iv2 + uvi) = some w) :
    hop A tworel s.vertex s.rm1 s.rm2 s.pa1 s.pa2 iv2 uvi = .invalidated_read ∧
    hop_loop A tworel b attempts (fuel + 1) s = .undefined ∧
    conclude A p r (hop_loop A tworel b attempts (fuel + 1) s) = .undefined ∧
    (if side then m else w) ∈ s.rm1 ∧ (if side then w else m) ∈ s.rm2 ∧
    ((if side then tworel.second else tworel.first).right w).length = 1 := by
  subst hside
  have hhop : hop A tworel s.vertex s.rm1 s.rm2 s.pa1 s.pa2 iv2 uvi = .invalidated_read := by
    rw [hop_of_candidate A tworel s.vertex s.rm1 s.rm2 s.pa1 s.pa2 iv2 uvi m s.vertex hm hcand]
    simp only [if_true, hsucc]
    exact singleton_branch_fallback A tworel s.vertex s.rm1 s.rm2 s.pa1 s.pa2 iv2 uvi m w hw
  have hloop : hop_loop A tworel b attempts (fuel + 1) s = .undefined := by
    rw [hop_loop_enter A tworel b attempts fuel s hcond, ← hiv2, ← huvi, hhop]
  have hmm := nth_mod_mem _ _ _ hm
  have hwm := List.mem_filter.1 (nth_mod_mem _ _ _ hw)
  refine ⟨hhop, hloop, by rw [hloop]; rfl, ?_, ?_, by simpa using hwm.2⟩
  · cases hs : (choose_side iv2 s.rm1 s.rm2).v2first
    · simpa [hs] using hwm.1
    · simpa [hs] using hmm
  · cases hs : (choose_side iv2 s.rm1 s.rm2).v2first
    · simpa [hs] using hmm
    · simpa [hs] using hwm.1

/-- Witness of C9 (divergence): the first hop of the attempt on `singles` from
vertex 0, with draw 1: module 11 of clustering A holds vertex 0 only, module 21
is the one-member module of clustering B at position 3 mod 1, and the source
reads the invalidated iterator where the pair (11, 21) was to be written. -/
theorem singleton_fallback_reads_invalidated_iterator_witness :
    hop spec_automaton singles singles_walk.vertex singles_walk.rm1 singles_walk.rm2
        singles_walk.pa1 singles_walk.pa2 1 2 = .invalidated_read ∧
    hop_loop spec_automaton singles 1 8 (7 + 1) singles_walk = .undefined ∧
    conclude spec_automaton (pimpl_t.construct counting_stream singles [0, 1] 0)
        (simulation_result_t.fresh RESULT_NONE)
        (hop_loop spec_automaton singles 1 8 (7 + 1) singles_walk) = .undefined ∧
    (if true then 11 else 21) ∈ singles_walk.rm1 ∧
    (if true then 21 else 11) ∈ singles_walk.rm2 ∧
    ((if true then singles.second else singles.first).right 21).length = 1 :=
  singleton_fallback_reads_invalidated_iterator spec_automaton singles 1 8 7 singles_walk
    1 2 true 11 21
    (pimpl_t.construct counting_stream singles [0, 1] 0)
    (simulation_result_t.fresh RESULT_NONE)
    (by decide) (by decide) rfl (by decide) (by decide) (by decide) (by decide) (by decide)

/-- The attempt on `singles` with the draws 0, 1 is the run of the witness of
C9: it starts at vertex 0, enters the loop at `singles_walk` and its first hop
reads the invalidated iterator, so the attempt and `get_sample` are
undefined. -/
theorem singles_attempt (r : simulation_result_t) :
    try_get_sample spec_automaton singles_start r = .undefined ∧
    get_sample spec_automaton singles_start = .undefined := by
  have h : ∀ r0, try_get_sample spec_automaton singles_start r0 = .undefined := by
    intro r0
    simp [try_get_sample, singles_start, pimpl_t.construct, lindis_max, lindis, counting_stream,
      start_vertex, get_modules, hop_loop, loop_cond, hop, choose_side, nth_mod, wrap_next,
      singleton_branch, singles, spec_automaton, conclude]
  refine ⟨h r, ?_⟩
  exact get_sample_loop_undefined (try_get_sample spec_automaton) 1023 0
    (simulation_result_t.fresh RESULT_NONE) singles_start rfl (h _)

/-- C10: in a hop (the loop body entered at state `s`, with draw `iv2` and
`uvi` the incremented `used_vertex_index`) where the candidate and its wrapped
successor in the member range of the selected module are both the current
vertex and the other side's module set is empty, the loop is left at once with
both automatons as they were, and, `going` being false for two SUCCESS
statuses, both components of `result` are set to `RESULT_NONE`. -/
theorem singleton_dead_end_fails {α : Type} (A : player_automaton α)
    (tworel : two_relations) (b attempts fuel : Nat) (s : walk_state α)
    (iv2 uvi : Nat) (side : Bool) (m : Nat) (p : pimpl_t) (r : simulation_result_t)
    (hgoing : A.going pa_status_t.SUCCESS pa_status_t.SUCCESS = false)
    (hcond : loop_cond A attempts s = true)
    (hiv2 : iv2 = (lindis b s.rndgen).1)
    (huvi : uvi = s.used_vertex_index + 1)
    (hside : side = (choose_side iv2 s.rm1 s.rm2).v2first)
    (hm : nth_mod (if side then s.rm1 else s.rm2) iv2 = some m)
    (hcand : nth_mod ((if side then tworel.first else tworel.second).right m) (iv2 + uvi)
      = some s.vertex)
    (hsucc : ((if side then tworel.first else tworel.second).right m)[wrap_next
          ((if side then tworel.first else tworel.second).right m).length
          ((iv2 + uvi) % ((if side then tworel.first else tworel.second).right m).length)]?
        = some s.vertex)
    (hother : (if side then s.rm2 else s.rm1) = []) :
    hop A tworel s.vertex s.rm1 s.rm2 s.pa1 s.pa2 iv2 uvi = .dead_end ∧
    hop_loop A tworel b attempts (fuel + 1) s
      = .finished s.pa1 s.pa2 (lindis b s.rndgen).2 ∧
    conclude A p r (hop_loop A tworel b attempts (fuel + 1) s)
      = .ok (⟨RESULT_NONE, RESULT_NONE, r.importance, r.failed_attempts⟩,
          ⟨p.tworel, (lindis b s.rndgen).2, p.lindis, p.verts⟩) := by
  subst hside
  have hhop : hop A tworel s.vertex s.rm1 s.rm2 s.pa1 s.pa2 iv2 uvi = .dead_end := by
    rw [hop_of_candidate A tworel s.vertex s.rm1 s.rm2 s.pa1 s.pa2 iv2 uvi m s.vertex hm hcand]
    simp only [if_true, hsucc]
    exact singleton_branch_dead_end A tworel s.vertex s.rm1 s.rm2 s.pa1 s.pa2 iv2 uvi m hother
  have hloop : hop_loop A tworel b attempts (fuel + 1) s
      = .finished s.pa1 s.pa2 (lindis b s.rndgen).2 := by
    rw [hop_loop_enter A tworel b attempts fuel s hcond, ← hiv2, ← huvi, hhop]
  refine ⟨hhop, hloop, ?_⟩
  have hnot : ¬ (A.get_status s.pa1 = pa_status_t.SUCCESS ∧
      A.get_status s.pa2 = pa_status_t.SUCCESS) := by
    rintro ⟨h1, h2⟩
    simp only [loop_cond, h1, h2, hgoing, Bool.false_and] at hcond
    exact Bool.false_ne_true hcond
  rw [hloop]
  simp only [conclude, if_neg hnot]

/-- Witness of C10: on `unsynced`, at the state `unsynced_walk` reached by the
hop from vertex 0 to vertex 1, the draw 1 selects module 12 of clustering A,
whose one member is vertex 1, and vertex 1 has no module in clustering B. -/
theorem singleton_dead_end_fails_witness :
    hop spec_automaton unsynced unsynced_walk.vertex unsynced_walk.rm1 unsynced_walk.rm2
        unsynced_walk.pa1 unsynced_walk.pa2 1 3 = .dead_end ∧
    hop_loop spec_automaton unsynced 1 8 (6 + 1) unsynced_walk
      = .finished unsynced_walk.pa1 unsynced_walk.pa2 (lindis 1 unsynced_walk.rndgen).2 ∧
    conclude spec_automaton ⟨unsynced, ⟨dead_end_stream, 0⟩, 1, [0, 1]⟩
        (simulation_result_t.fresh RESULT_NONE)
        (hop_loop spec_automaton unsynced 1 8 (6 + 1) unsynced_walk)
      = .ok (⟨RESULT_NONE, RESULT_NONE, (simulation_result_t.fresh RESULT_NONE).importance,
            (simulation_result_t.fresh RESULT_NONE).failed_attempts⟩,
          ⟨(⟨unsynced, ⟨dead_end_stream, 0⟩, 1, [0, 1]⟩ : pimpl_t).tworel,
            (lindis 1 unsynced_walk.rndgen).2,
            (⟨unsynced, ⟨dead_end_stream, 0⟩, 1, [0, 1]⟩ : pimpl_t).lindis,
            (⟨unsynced, ⟨dead_end_stream, 0⟩, 1, [0, 1]⟩ : pimpl_t).verts⟩) :=
  singleton_dead_end_fails spec_automaton unsynced 1 8 6 unsynced_walk 1 3 true 12
    ⟨unsynced, ⟨dead_end_stream, 0⟩, 1, [0, 1]⟩ (simulation_result_t.fresh RESULT_NONE)
    (by decide) (by decide) (by decide) rfl (by decide) (by decide) (by decide) (by decide)
    (by decide)

/-- The attempt on `unsynced` with the draws 0, 0, 1 is the run of the witness
of C10: it hops from vertex 0 to vertex 1, reaching `unsynced_walk`, meets the
dead end there and ends in "none" after three draws. -/
theorem unsynced_attempt (r : simulation_result_t) :
    hop_loop spec_automaton unsynced 1 8 8
        ⟨0, [10, 11], [20, 21], spec_automaton.make [10, 11], spec_automaton.make [20, 21], 1,
          ⟨dead_end_stream, 1⟩⟩
      = hop_loop spec_automaton unsynced 1 8 7 unsynced_walk ∧
    try_get_sample spec_automaton ⟨unsynced, ⟨dead_end_stream, 0⟩, 1, [0, 1]⟩ r
      = .ok (⟨RESULT_NONE, RESULT_NONE, 1, r.failed_attempts⟩,
          ⟨unsynced, ⟨dead_end_stream, 3⟩, 1, [0, 1]⟩) := by
  constructor
  · simp [hop_loop, loop_cond, hop, choose_side, nth_mod, wrap_next, singleton_branch, adopt,
      get_modules, lindis, dead_end_stream, unsynced, spec_automaton, unsynced_walk]
  · simp [try_get_sample, lindis, dead_end_stream, start_vertex,
      get_modules, hop_loop, loop_cond, hop, choose_side, nth_mod, wrap_next, singleton_branch,
      adopt, unsynced, spec_automaton, conclude]

/-! ## Lemmas for the claims on the walk -/

/-- The loop body is the selection of a module followed by
`hop_from_module`. -/
theorem hop_eq_from_module {α : Type} (A : player_automaton α) (tworel : two_relations)
    (vertex : Nat) (rm1 rm2 : List Nat) (pa1 pa2 : α) (iv2 uvi : Nat) :
    hop A tworel vertex rm1 rm2 pa1 pa2 iv2 uvi
      = match nth_mod (choose_side iv2 rm1 rm2).v2bms iv2 with
        | none => .undefined
        | some iv2mod =>
          hop_from_module A tworel vertex pa1 pa2 iv2 uvi (choose_side iv2 rm1 rm2) iv2mod := by
  rfl

/-- The instrumented loop leaves the loop as the loop itself does. -/
theorem hop_loop_counted_fst {α : Type} (A : player_automaton α) (tworel : two_relations)
    (b attempts : Nat) :
    ∀ (fuel : Nat) (s : walk_state α),
      (hop_loop_counted A tworel b attempts fuel s).1 = hop_loop A tworel b attempts fuel s := by
  intro fuel
  induction fuel with
  | zero =>
    intro s
    simp [hop_loop_counted, hop_loop]
  | succ fuel ih =>
    intro s
    by_cases hc : loop_cond A attempts s = true
    · rw [hop_loop_enter A tworel b attempts fuel s hc]
      simp only [hop_loop_counted, hc, if_true]
      split <;> simp_all
    · simp [hop_loop_counted, hop_loop, hc]

/-- The attempt is the start followed by the loop from `first_walk` and the
conclusion. -/
theorem try_get_sample_eq {α : Type} (A : player_automaton α) (p : pimpl_t)
    (r : simulation_result_t) (v0 : Nat)
    (hv0 : p.verts[(lindis p.lindis p.rndgen).1]? = some v0) :
    try_get_sample A p r
      = conclude A p ⟨r.first, r.second, 1, r.failed_attempts⟩
          (hop_loop A p.tworel p.lindis
            (((start_vertex p.tworel v0).2.1.length + (start_vertex p.tworel v0).2.2.length) * 2)
            (((start_vertex p.tworel v0).2.1.length + (start_vertex p.tworel v0).2.2.length) * 2)
            (first_walk A (start_vertex p.tworel v0) (lindis p.lindis p.rndgen).2)) := by
  unfold try_get_sample
  simp only [hv0]
  rfl

/-- A dereference after `advance` by `i % size()` fails exactly on an empty
container. -/
theorem nth_mod_eq_none (xs : List Nat) (i : Nat) : nth_mod xs i = none ↔ xs = [] := by
  unfold nth_mod
  cases xs with
  | nil => simp
  | cons x xs =>
    have h : i % (x :: xs).length < (x :: xs).length := Nat.mod_lt _ (by simp)
    simp [List.getElem?_eq_getElem h]
    exact Nat.mod_lt _ (Nat.succ_pos _)

/-- The wrapped successor of a position of a range is a position of the
range. -/
theorem wrap_next_lt (len i : Nat) (h : i < len) : wrap_next len i < len := by
  unfold wrap_next
  split <;> omega

/-- The wrapped successor of a position of a range of two or more elements is
another position. -/
theorem wrap_next_ne (len i : Nat) (h : 2 ≤ len) : wrap_next len i ≠ i := by
  unfold wrap_next
  split <;> omega

/-- `adopt` adopts the vertex it is given. -/
theorem adopt_eq_adopted {α : Type} (A : player_automaton α) (tworel : two_relations)
    (pa1 pa2 q1 q2 : α) (iv2 uvi t v : Nat) (r1 r2 : List Nat)
    (h : adopt A tworel pa1 pa2 iv2 uvi t = .adopted v r1 r2 q1 q2) :
    t = v ∧ r1 = tworel.first.left v ∧ r2 = tworel.second.left v ∧
    q1 = A.take_set (tworel.first.left v)
      (A.set_operation_kind (decide ((iv2 + uvi) % 2 ≠ 0)) pa1) ∧
    q2 = A.take_set (tworel.second.left v)
      (A.set_operation_kind (decide ((iv2 + uvi) % 2 ≠ 0)) pa2) := by
  simp only [adopt, get_modules, hop_result.adopted.injEq] at h
  obtain ⟨rfl, rfl, rfl, rfl, rfl⟩ := h
  exact ⟨rfl, rfl, rfl, rfl, rfl⟩

/-- The ways through the loop body up to the singleton branch. -/
theorem hop_cases {α : Type} (A : player_automaton α) (tworel : two_relations)
    (vertex : Nat) (rm1 rm2 : List Nat) (pa1 pa2 : α) (iv2 uvi : Nat) :
    hop A tworel vertex rm1 rm2 pa1 pa2 iv2 uvi = .undefined ∨
    ∃ m v, nth_mod (if (choose_side iv2 rm1 rm2).v2first then rm1 else rm2) iv2 = some m ∧
      nth_mod ((if (choose_side iv2 rm1 rm2).v2first then tworel.first
        else tworel.second).right m) (iv2 + uvi) = some v ∧
      ((v ≠ vertex ∧
          hop A tworel vertex rm1 rm2 pa1 pa2 iv2 uvi = adopt A tworel pa1 pa2 iv2 uvi v) ∨
        (v = vertex ∧
          ∃ v2, ((if (choose_side iv2 rm1 rm2).v2first then tworel.first
              else tworel.second).right m)[wrap_next
                ((if (choose_side iv2 rm1 rm2).v2first then tworel.first
                  else tworel.second).right m).length
                ((iv2 + uvi) % ((if (choose_side iv2 rm1 rm2).v2first then tworel.first
                  else tworel.second).right m).length)]? = some v2 ∧
            ((v2 ≠ vertex ∧
                hop A tworel vertex rm1 rm2 pa1 pa2 iv2 uvi
                  = adopt A tworel pa1 pa2 iv2 uvi v2) ∨
              (v2 = vertex ∧
                hop A tworel vertex rm1 rm2 pa1 pa2 iv2 uvi
                  = singleton_branch A tworel vertex pa1 pa2 iv2 uvi
                      (choose_side iv2 rm1 rm2) m)))) := by
  cases hm : nth_mod (if (choose_side iv2 rm1 rm2).v2first then rm1 else rm2) iv2 with
  | none =>
    left
    rw [hop_eq_from_module, choose_side_v2bms, hm]
  | some m =>
    cases hv : nth_mod ((if (choose_side iv2 rm1 rm2).v2first then tworel.first
        else tworel.second).right m) (iv2 + uvi) with
    | none =>
      left
      rw [hop_eq_from_module, choose_side_v2bms, hm]
      have hnil := (nth_mod_eq_none _ _).1 hv
      simp [hop_from_module, hnil]
    | some v =>
      right
      have hhop := hop_of_candidate A tworel vertex rm1 rm2 pa1 pa2 iv2 uvi m v hm hv
      obtain ⟨hlen, _⟩ := (nth_mod_eq_some _ _ _).1 hv
      have hw := wrap_next_lt _ ((iv2 + uvi) % ((if (choose_side iv2 rm1 rm2).v2first
        then tworel.first else tworel.second).right m).length)
        (Nat.mod_lt _ (Nat.pos_of_ne_zero hlen))
      have hget := List.getElem?_eq_getElem hw
      refine ⟨m, v, rfl, hv, ?_⟩
      by_cases hvv : v = vertex
      · right
        refine ⟨hvv, _, hget, ?_⟩
        rw [hhop, if_pos hvv]
        simp only [hget]
        by_cases hv2 : ((if (choose_side iv2 rm1 rm2).v2first then tworel.first
            else tworel.second).right m)[wrap_next
              ((if (choose_side iv2 rm1 rm2).v2first then tworel.first
                else tworel.second).right m).length
              ((iv2 + uvi) % ((if (choose_side iv2 rm1 rm2).v2first then tworel.first
                else tworel.second).right m).length)] = vertex
        · right
          exact ⟨hv2, by rw [if_pos hv2]⟩
        · left
          exact ⟨hv2, by rw [if_neg hv2]⟩
      · left
        exact ⟨hvv, by rw [hhop, if_neg hvv]⟩

/-- The ways through the singleton branch; `other` is the other side's set of
the current vertex, `Yr` the backward view of the other side's clustering. -/
theorem singleton_branch_cases {α : Type} (A : player_automaton α) (tworel : two_relations)
    (vertex : Nat) (rm1 rm2 : List Nat) (pa1 pa2 : α) (iv2 uvi m : Nat)
    (other : List Nat) (Yr : Nat → List Nat)
    (hother : other = if (choose_side iv2 rm1 rm2).v2first then rm2 else rm1)
    (hYr : Yr = (if (choose_side iv2 rm1 rm2).v2first then tworel.second
      else tworel.first).right) :
    (other = [] ∧
      singleton_branch A tworel vertex pa1 pa2 iv2 uvi (choose_side iv2 rm1 rm2) m
        = .dead_end) ∨
    (∃ w, nth_mod (other.filter (fun v2mod => decide ((Yr v2mod).length = 1))) (iv2 + uvi)
        = some w ∧
      singleton_branch A tworel vertex pa1 pa2 iv2 uvi (choose_side iv2 rm1 rm2) m
        = .invalidated_read) ∨
    (other ≠ [] ∧ other.filter (fun v2mod => decide ((Yr v2mod).length = 1)) = [] ∧
      (singleton_branch A tworel vertex pa1 pa2 iv2 uvi (choose_side iv2 rm1 rm2) m
          = .undefined ∨
        ∃ m2 v t, nth_mod other iv2 = some m2 ∧ nth_mod (Yr m2) (iv2 + uvi) = some v ∧
          (Yr m2)[if v = vertex then wrap_next (Yr m2).length ((iv2 + uvi) % (Yr m2).length)
            else (iv2 + uvi) % (Yr m2).length]? = some t ∧
          singleton_branch A tworel vertex pa1 pa2 iv2 uvi (choose_side iv2 rm1 rm2) m
            = adopt A tworel pa1 pa2 iv2 uvi t)) := by
  subst hother hYr
  by_cases ho : (if (choose_side iv2 rm1 rm2).v2first then rm2 else rm1) = []
  · left
    exact ⟨ho, singleton_branch_dead_end A tworel vertex rm1 rm2 pa1 pa2 iv2 uvi m ho⟩
  · right
    by_cases hs : (if (choose_side iv2 rm1 rm2).v2first then rm2 else rm1).filter
        (fun v2mod => decide (((if (choose_side iv2 rm1 rm2).v2first then tworel.second
          else tworel.first).right v2mod).length = 1)) = []
    · right
      refine ⟨ho, hs, ?_⟩
      have hsb : singleton_branch A tworel vertex pa1 pa2 iv2 uvi (choose_side iv2 rm1 rm2) m
          = match nth_mod (if (choose_side iv2 rm1 rm2).v2first then rm2 else rm1) iv2 with
            | none => .undefined
            | some iv2mod2 =>
              if ((if (choose_side iv2 rm1 rm2).v2first then tworel.second
                  else tworel.first).right iv2mod2).length = 0 then .undefined
              else
                match ((if (choose_side iv2 rm1 rm2).v2first then tworel.second
                    else tworel.first).right iv2mod2)[(iv2 + uvi)
                      % ((if (choose_side iv2 rm1 rm2).v2first then tworel.second
                        else tworel.first).right iv2mod2).length]? with
                | none => .undefined
                | some v =>
                  match ((if (choose_side iv2 rm1 rm2).v2first then tworel.second
                      else tworel.first).right iv2mod2)[if v = vertex then
                        wrap_next ((if (choose_side iv2 rm1 rm2).v2first then tworel.second
                          else tworel.first).right iv2mod2).length ((iv2 + uvi)
                            % ((if (choose_side iv2 rm1 rm2).v2first then tworel.second
                              else tworel.first).right iv2mod2).length)
                      else (iv2 + uvi)
                        % ((if (choose_side iv2 rm1 rm2).v2first then tworel.second
                          else tworel.first).right iv2mod2).length]? with
                  | none => .undefined
                  | some target => adopt A tworel pa1 pa2 iv2 uvi target := by
        unfold singleton_branch
        simp only [choose_side_other, List.isEmpty_iff, ho, hs, if_false, if_true]
      rw [hsb]
      cases hm2 : nth_mod (if (choose_side iv2 rm1 rm2).v2first then rm2 else rm1) iv2 with
      | none => exact Or.inl rfl
      | some m2 =>
        simp only
        by_cases hlen : ((if (choose_side iv2 rm1 rm2).v2first then tworel.second
            else tworel.first).right m2).length = 0
        · left
          rw [if_pos hlen]
        · rw [if_neg hlen]
          cases hv : ((if (choose_side iv2 rm1 rm2).v2first then tworel.second
              else tworel.first).right m2)[(iv2 + uvi)
                % ((if (choose_side iv2 rm1 rm2).v2first then tworel.second
                  else tworel.first).right m2).length]? with
          | none => exact Or.inl rfl
          | some v =>
            simp only
            cases ht : ((if (choose_side iv2 rm1 rm2).v2first then tworel.second
                else tworel.first).right m2)[if v = vertex then
                  wrap_next ((if (choose_side iv2 rm1 rm2).v2first then tworel.second
                    else tworel.first).right m2).length ((iv2 + uvi)
                      % ((if (choose_side iv2 rm1 rm2).v2first then tworel.second
                        else tworel.first).right m2).length)
                else (iv2 + uvi)
                  % ((if (choose_side iv2 rm1 rm2).v2first then tworel.second
                    else tworel.first).right m2).length]? with
            | none => exact Or.inl rfl
            | some t =>
              right
              exact ⟨m2, v, t, rfl, (nth_mod_eq_some _ _ _).2 ⟨hlen, hv⟩, ht, rfl⟩
    · left
      cases hw : nth_mod ((if (choose_side iv2 rm1 rm2).v2first then rm2 else rm1).filter
          (fun v2mod => decide (((if (choose_side iv2 rm1 rm2).v2first then tworel.second
            else tworel.first).right v2mod).length = 1))) (iv2 + uvi) with
      | none => exact absurd ((nth_mod_eq_none _ _).1 hw) hs
      | some w =>
        exact ⟨w, rfl,
          singleton_branch_fallback A tworel vertex rm1 rm2 pa1 pa2 iv2 uvi m w hw⟩

/-- Where an adopted vertex comes from: the member range of the selected
module (the candidate or its wrapped successor, and then it is not the current
vertex), or, out of the singleton branch, the member range of a module of the
other side's set, none of whose modules has a one-member range. -/
theorem hop_adopted_cases {α : Type} (A : player_automaton α) (tworel : two_relations)
    (vertex : Nat) (rm1 rm2 : List Nat) (pa1 pa2 q1 q2 : α) (iv2 uvi v : Nat)
    (r1 r2 : List Nat)
    (h : hop A tworel vertex rm1 rm2 pa1 pa2 iv2 uvi = .adopted v r1 r2 q1 q2) :
    adopt A tworel pa1 pa2 iv2 uvi v = .adopted v r1 r2 q1 q2 ∧
    ((v ≠ vertex ∧
        ∃ m, m ∈ (if (choose_side iv2 rm1 rm2).v2first then rm1 else rm2) ∧
          v ∈ (if (choose_side iv2 rm1 rm2).v2first then tworel.first
            else tworel.second).right m) ∨
      ∃ m2 c, m2 ∈ (if (choose_side iv2 rm1 rm2).v2first then rm2 else rm1) ∧
        ((if (choose_side iv2 rm1 rm2).v2first then rm2 else rm1).filter
          (fun v2mod => decide (((if (choose_side iv2 rm1 rm2).v2first then tworel.second
            else tworel.first).right v2mod).length = 1))) = [] ∧
        nth_mod ((if (choose_side iv2 rm1 rm2).v2first then tworel.second
          else tworel.first).right m2) (iv2 + uvi) = some c ∧
        ((if (choose_side iv2 rm1 rm2).v2first then tworel.second
          else tworel.first).right m2)[if c = vertex then
            wrap_next ((if (choose_side iv2 rm1 rm2).v2first then tworel.second
              else tworel.first).right m2).length
              ((iv2 + uvi) % ((if (choose_side iv2 rm1 rm2).v2first then tworel.second
                else tworel.first).right m2).length)
          else (iv2 + uvi) % ((if (choose_side iv2 rm1 rm2).v2first then tworel.second
            else tworel.first).right m2).length]? = some v) := by
  rcases hop_cases A tworel vertex rm1 rm2 pa1 pa2 iv2 uvi with hu | ⟨m, c, hm, hc, hrest⟩
  · rw [hu] at h
    cases h
  · rcases hrest with ⟨hne, hhop⟩ | ⟨_, v2, hv2, hrest2⟩
    · rw [hhop] at h
      obtain ⟨rfl, _⟩ := adopt_eq_adopted A tworel pa1 pa2 q1 q2 iv2 uvi c v r1 r2 h
      exact ⟨h, Or.inl ⟨hne, m, nth_mod_mem _ _ _ hm, nth_mod_mem _ _ _ hc⟩⟩
    · rcases hrest2 with ⟨hne, hhop⟩ | ⟨_, hhop⟩
      · rw [hhop] at h
        obtain ⟨rfl, _⟩ := adopt_eq_adopted A tworel pa1 pa2 q1 q2 iv2 uvi v2 v r1 r2 h
        exact ⟨h, Or.inl ⟨hne, m, nth_mod_mem _ _ _ hm, List.getElem?_mem hv2⟩⟩
      · rw [hhop] at h
        rcases singleton_branch_cases A tworel vertex rm1 rm2 pa1 pa2 iv2 uvi m _ _ rfl rfl
          with ⟨_, hsb⟩ | ⟨w, _, hsb⟩ | ⟨_, hs, hsb | ⟨m2, c2, t, hm2, hc2, ht, hsb⟩⟩
        · rw [hsb] at h
          cases h
        · rw [hsb] at h
          cases h
        · rw [hsb] at h
          cases h
        · rw [hsb] at h
          obtain ⟨rfl, _⟩ := adopt_eq_adopted A tworel pa1 pa2 q1 q2 iv2 uvi t v r1 r2 h
          exact ⟨h, Or.inr ⟨m2, c2, nth_mod_mem _ _ _ hm2, hs, hc2, ht⟩⟩

/-! ## The walk: claims C11 to C14 -/

/-- C11: in a hop (the loop body entered at state `s`, with draw `iv2` and
`uvi` the incremented `used_vertex_index`) that adopts a vertex `v`, both
automatons are given the same operation kind, which is intersection exactly
when `iv2 + uvi` is odd and the other kind (union) exactly when it is even;
then `pa1` takes the clustering-A module set of `v` and `pa2` its clustering-B
module set, and these two sets are the module sets of the next iteration. -/
theorem hop_feeds_automatons {α : Type} (A : player_automaton α) (tworel : two_relations)
    (b attempts fuel : Nat) (s : walk_state α) (iv2 uvi v : Nat) (r1 r2 : List Nat)
    (q1 q2 : α)
    (hcond : loop_cond A attempts s = true)
    (hiv2 : iv2 = (lindis b s.rndgen).1)
    (huvi : uvi = s.used_vertex_index + 1)
    (hhop : hop A tworel s.vertex s.rm1 s.rm2 s.pa1 s.pa2 iv2 uvi = .adopted v r1 r2 q1 q2) :
    ∃ do_intersection : Bool,
      (do_intersection = true ↔ (iv2 + uvi) % 2 = 1) ∧
      (do_intersection = false ↔ (iv2 + uvi) % 2 = 0) ∧
      q1 = A.take_set (tworel.first.left v) (A.set_operation_kind do_intersection s.pa1) ∧
      q2 = A.take_set (tworel.second.left v) (A.set_operation_kind do_intersection s.pa2) ∧
      r1 = tworel.first.left v ∧ r2 = tworel.second.left v ∧
      hop_loop A tworel b attempts (fuel + 1) s
        = hop_loop A tworel b attempts fuel
            ⟨v, tworel.first.left v, tworel.second.left v, q1, q2, uvi,
              (lindis b s.rndgen).2⟩ := by
  obtain ⟨hadopt, _⟩ := hop_adopted_cases A tworel s.vertex s.rm1 s.rm2 s.pa1 s.pa2 q1 q2
    iv2 uvi v r1 r2 hhop
  obtain ⟨_, hr1, hr2, hq1, hq2⟩ :=
    adopt_eq_adopted A tworel s.pa1 s.pa2 q1 q2 iv2 uvi v v r1 r2 hadopt
  have hparity : (iv2 + uvi) % 2 = 0 ∨ (iv2 + uvi) % 2 = 1 := Nat.mod_two_eq_zero_or_one _
  refine ⟨decide ((iv2 + uvi) % 2 ≠ 0), ?_, ?_, hq1, hq2, hr1, hr2, ?_⟩
  · rw [decide_eq_true_iff]
    omega
  · rw [decide_eq_false_iff_not]
    omega
  · rw [hop_loop_enter A tworel b attempts fuel s hcond, ← hiv2, ← huvi, hhop, hr1, hr2]

/-- Witness of C11: the first hop of an attempt on `overlap` from vertex 0,
with draw 1: `1 + 2` is odd, so both automatons intersect with the module sets
of the adopted vertex 1. -/
theorem hop_feeds_automatons_witness :
    ∃ do_intersection : Bool,
      (do_intersection = true ↔ (1 + 2) % 2 = 1) ∧
      (do_intersection = false ↔ (1 + 2) % 2 = 0) ∧
      (⟨[10, 11], true⟩ : candidate_set)
        = spec_automaton.take_set (overlap.first.left 1)
            (spec_automaton.set_operation_kind do_intersection
              (⟨0, [10, 11], [20, 21], ⟨[10, 11], true⟩, ⟨[20, 21], true⟩, 1,
                ⟨counting_stream 0, 1⟩⟩ : walk_state candidate_set).pa1) ∧
      (⟨[20, 21], true⟩ : candidate_set)
        = spec_automaton.take_set (overlap.second.left 1)
            (spec_automaton.set_operation_kind do_intersection
              (⟨0, [10, 11], [20, 21], ⟨[10, 11], true⟩, ⟨[20, 21], true⟩, 1,
                ⟨counting_stream 0, 1⟩⟩ : walk_state candidate_set).pa2) ∧
      [10, 11] = overlap.first.left 1 ∧ [20, 21] = overlap.second.left 1 ∧
      hop_loop spec_automaton overlap 1 8 (7 + 1)
          ⟨0, [10, 11], [20, 21], ⟨[10, 11], true⟩, ⟨[20, 21], true⟩, 1, ⟨counting_stream 0, 1⟩⟩
        = hop_loop spec_automaton overlap 1 8 7
            ⟨1, overlap.first.left 1, overlap.second.left 1, ⟨[10, 11], true⟩, ⟨[20, 21], true⟩,
              2, (lindis 1 ⟨counting_stream 0, 1⟩).2⟩ :=
  hop_feeds_automatons spec_automaton overlap 1 8 7
    ⟨0, [10, 11], [20, 21], ⟨[10, 11], true⟩, ⟨[20, 21], true⟩, 1, ⟨counting_stream 0, 1⟩⟩
    1 2 1 [10, 11] [20, 21] ⟨[10, 11], true⟩ ⟨[20, 21], true⟩
    (by decide) (by decide) rfl
    (by simp [hop, choose_side, nth_mod, wrap_next, adopt, get_modules, overlap, spec_automaton])

/-- C12: in a hop with draw `iv2` from the module sets `rm1`, `rm2`, an odd
draw selects the first clustering's set and an even draw the second
clustering's; when the set so selected is empty the other side's set is used
and the side flag is flipped; the module selected is the element at position
`iv2` modulo the size of the set finally used, the rest of the hop being run
with that module and that flag (and the hop is undefined when the set finally
used is empty). -/
theorem hop_selects_module {α : Type} (A : player_automaton α) (tworel : two_relations)
    (vertex : Nat) (rm1 rm2 : List Nat) (pa1 pa2 : α) (iv2 uvi : Nat) :
    (iv2 % 2 = 1 → rm1 ≠ [] →
      (choose_side iv2 rm1 rm2).v2first = true ∧ (choose_side iv2 rm1 rm2).v2bms = rm1) ∧
    (iv2 % 2 = 1 → rm1 = [] →
      (choose_side iv2 rm1 rm2).v2first = false ∧ (choose_side iv2 rm1 rm2).v2bms = rm2) ∧
    (iv2 % 2 = 0 → rm2 ≠ [] →
      (choose_side iv2 rm1 rm2).v2first = false ∧ (choose_side iv2 rm1 rm2).v2bms = rm2) ∧
    (iv2 % 2 = 0 → rm2 = [] →
      (choose_side iv2 rm1 rm2).v2first = true ∧ (choose_side iv2 rm1 rm2).v2bms = rm1) ∧
    ((choose_side iv2 rm1 rm2).v2bms ≠ [] →
      ∃ m, (choose_side iv2 rm1 rm2).v2bms[iv2 % (choose_side iv2 rm1 rm2).v2bms.length]?
          = some m ∧
        hop A tworel vertex rm1 rm2 pa1 pa2 iv2 uvi
          = hop_from_module A tworel vertex pa1 pa2 iv2 uvi (choose_side iv2 rm1 rm2) m) ∧
    ((choose_side iv2 rm1 rm2).v2bms = [] →
      hop A tworel vertex rm1 rm2 pa1 pa2 iv2 uvi = .undefined) := by
  refine ⟨?_, ?_, ?_, ?_, ?_, ?_⟩
  · intro h1 h2
    cases rm1 with
    | nil => exact absurd rfl h2
    | cons x xs => simp [choose_side, h1]
  · intro h1 h2
    subst h2
    cases rm2 <;> simp [choose_side, h1]
  · intro h1 h2
    cases rm2 with
    | nil => exact absurd rfl h2
    | cons x xs => simp [choose_side, h1]
  · intro h1 h2
    subst h2
    cases rm1 <;> simp [choose_side, h1]
  · intro hne
    cases hm : nth_mod (choose_side iv2 rm1 rm2).v2bms iv2 with
    | none => exact absurd ((nth_mod_eq_none _ _).1 hm) hne
    | some m =>
      refine ⟨m, ((nth_mod_eq_some _ _ _).1 hm).2, ?_⟩
      rw [hop_eq_from_module, hm]
  · intro hnil
    rw [hop_eq_from_module, (nth_mod_eq_none _ _).2 hnil]

/-- C13: the attempt draws a position of the vertex set and reads the vertex
`v0` there; when `v0` is 0 and vertex 0 has no module in either clustering,
the attempt proceeds from the vertex id `v0 + 1` with the module sets of that
vertex; in every other case it proceeds from `v0` with the module sets of
`v0`.  In both cases `used_vertex_index` starts at 1 and the hop budget is
twice the number of modules in the two sets. -/
theorem attempt_start_vertex {α : Type} (A : player_automaton α) (p : pimpl_t)
    (r : simulation_result_t)
    (hverts : p.verts ≠ []) (hlen : p.verts.length ≤ 2 ^ 32)
    (hb : p.lindis = lindis_max p.verts.length) :
    ∃ v0, p.verts[p.rndgen.raw p.rndgen.pos % p.verts.length]? = some v0 ∧ v0 ∈ p.verts ∧
      (v0 = 0 ∧ p.tworel.first.left 0 = [] ∧ p.tworel.second.left 0 = [] →
        try_get_sample A p r
          = conclude A p ⟨r.first, r.second, 1, r.failed_attempts⟩
              (hop_loop A p.tworel p.lindis
                (((p.tworel.first.left (v0 + 1)).length
                  + (p.tworel.second.left (v0 + 1)).length) * 2)
                (((p.tworel.first.left (v0 + 1)).length
                  + (p.tworel.second.left (v0 + 1)).length) * 2)
                ⟨v0 + 1, p.tworel.first.left (v0 + 1), p.tworel.second.left (v0 + 1),
                  A.make (p.tworel.first.left (v0 + 1)),
                  A.make (p.tworel.second.left (v0 + 1)), 1,
                  ⟨p.rndgen.raw, p.rndgen.pos + 1⟩⟩)) ∧
      (¬ (v0 = 0 ∧ p.tworel.first.left 0 = [] ∧ p.tworel.second.left 0 = []) →
        try_get_sample A p r
          = conclude A p ⟨r.first, r.second, 1, r.failed_attempts⟩
              (hop_loop A p.tworel p.lindis
                (((p.tworel.first.left v0).length + (p.tworel.second.left v0).length) * 2)
                (((p.tworel.first.left v0).length + (p.tworel.second.left v0).length) * 2)
                ⟨v0, p.tworel.first.left v0, p.tworel.second.left v0,
                  A.make (p.tworel.first.left v0), A.make (p.tworel.second.left v0), 1,
                  ⟨p.rndgen.raw, p.rndgen.pos + 1⟩⟩)) := by
  have hpos : 1 ≤ p.verts.length := by
    cases hvs : p.verts with
    | nil => exact absurd hvs hverts
    | cons x xs => simp
  have hmax : p.lindis + 1 = p.verts.length := by rw [hb, lindis_max_succ _ hpos hlen]
  have hi : p.rndgen.raw p.rndgen.pos % p.verts.length < p.verts.length :=
    Nat.mod_lt _ hpos
  have hget := List.getElem?_eq_getElem hi
  have hv0 : p.verts[(lindis p.lindis p.rndgen).1]?
      = some (p.verts[p.rndgen.raw p.rndgen.pos % p.verts.length]) := by
    simp only [lindis, hmax]
    exact hget
  refine ⟨_, hget, List.getElem_mem hi, ?_, ?_⟩
  · rintro ⟨h0, h1, h2⟩
    rw [try_get_sample_eq A p r _ hv0]
    simp [start_vertex, get_modules, first_walk, lindis, h0, h1, h2]
  · intro hno
    rw [try_get_sample_eq A p r _ hv0]
    by_cases h0 : p.verts[p.rndgen.raw p.rndgen.pos % p.verts.length] = 0
    · have hsets : ¬ ((p.tworel.first.left 0).length = 0 ∧
          (p.tworel.second.left 0).length = 0) := by
        rintro ⟨h1, h2⟩
        exact hno ⟨h0, List.length_eq_zero.1 h1, List.length_eq_zero.1 h2⟩
      simp only [start_vertex, get_modules, first_walk, lindis, h0, true_and, if_neg hsets]
    · simp only [start_vertex, get_modules, first_walk, lindis, h0, false_and, if_false]

/-- Witness of C13: the simulator over `one_based` with the vertex ids 0, 1, 2,
built with seed 0. -/
theorem attempt_start_vertex_witness :
    ∃ v0, (pimpl_t.construct counting_stream one_based [0, 1, 2] 0).verts[
        (pimpl_t.construct counting_stream one_based [0, 1, 2] 0).rndgen.raw
          (pimpl_t.construct counting_stream one_based [0, 1, 2] 0).rndgen.pos
        % (pimpl_t.construct counting_stream one_based [0, 1, 2] 0).verts.length]? = some v0 ∧
      v0 ∈ (pimpl_t.construct counting_stream one_based [0, 1, 2] 0).verts ∧
      (v0 = 0 ∧
          (pimpl_t.construct counting_stream one_based [0, 1, 2] 0).tworel.first.left 0 = [] ∧
          (pimpl_t.construct counting_stream one_based [0, 1, 2] 0).tworel.second.left 0 = [] →
        try_get_sample spec_automaton (pimpl_t.construct counting_stream one_based [0, 1, 2] 0)
            (simulation_result_t.fresh RESULT_NONE)
          = conclude spec_automaton (pimpl_t.construct counting_stream one_based [0, 1, 2] 0)
              ⟨(simulation_result_t.fresh RESULT_NONE).first,
                (simulation_result_t.fresh RESULT_NONE).second, 1,
                (simulation_result_t.fresh RESULT_NONE).failed_attempts⟩
              (hop_loop spec_automaton
                (pimpl_t.construct counting_stream one_based [0, 1, 2] 0).tworel
                (pimpl_t.construct counting_stream one_based [0, 1, 2] 0).lindis
                ((((pimpl_t.construct counting_stream one_based [0, 1, 2] 0).tworel.first.left
                    (v0 + 1)).length
                  + ((pimpl_t.construct counting_stream one_based [0, 1, 2] 0).tworel.second.left
                    (v0 + 1)).length) * 2)
                ((((pimpl_t.construct counting_stream one_based [0, 1, 2] 0).tworel.first.left
                    (v0 + 1)).length
                  + ((pimpl_t.construct counting_stream one_based [0, 1, 2] 0).tworel.second.left
                    (v0 + 1)).length) * 2)
                ⟨v0 + 1,
                  (pimpl_t.construct counting_stream one_based [0, 1, 2] 0).tworel.first.left
                    (v0 + 1),
                  (pimpl_t.construct counting_stream one_based [0, 1, 2] 0).tworel.second.left
                    (v0 + 1),
                  spec_automaton.make
                    ((pimpl_t.construct counting_stream one_based [0, 1, 2] 0).tworel.first.left
                      (v0 + 1)),
                  spec_automaton.make
                    ((pimpl_t.construct counting_stream one_based [0, 1, 2] 0).tworel.second.left
                      (v0 + 1)), 1,
                  ⟨(pimpl_t.construct counting_stream one_based [0, 1, 2] 0).rndgen.raw,
                    (pimpl_t.construct counting_stream one_based [0, 1, 2] 0).rndgen.pos
                      + 1⟩⟩)) ∧
      (¬ (v0 = 0 ∧
          (pimpl_t.construct counting_stream one_based [0, 1, 2] 0).tworel.first.left 0 = [] ∧
          (pimpl_t.construct counting_stream one_based [0, 1, 2] 0).tworel.second.left 0
            = []) →
        try_get_sample spec_automaton (pimpl_t.construct counting_stream one_based [0, 1, 2] 0)
            (simulation_result_t.fresh RESULT_NONE)
          = conclude spec_automaton (pimpl_t.construct counting_stream one_based [0, 1, 2] 0)
              ⟨(simulation_result_t.fresh RESULT_NONE).first,
                (simulation_result_t.fresh RESULT_NONE).second, 1,
                (simulation_result_t.fresh RESULT_NONE).failed_attempts⟩
              (hop_loop spec_automaton
                (pimpl_t.construct counting_stream one_based [0, 1, 2] 0).tworel
                (pimpl_t.construct counting_stream one_based [0, 1, 2] 0).lindis
                ((((pimpl_t.construct counting_stream one_based [0, 1, 2] 0).tworel.first.left
                    v0).length
                  + ((pimpl_t.construct counting_stream one_based [0, 1, 2] 0).tworel.second.left
                    v0).length) * 2)
                ((((pimpl_t.construct counting_stream one_based [0, 1, 2] 0).tworel.first.left
                    v0).length
                  + ((pimpl_t.construct counting_stream one_based [0, 1, 2] 0).tworel.second.left
                    v0).length) * 2)
                ⟨v0,
                  (pimpl_t.construct counting_stream one_based [0, 1, 2] 0).tworel.first.left v0,
                  (pimpl_t.construct counting_stream one_based [0, 1, 2] 0).tworel.second.left v0,
                  spec_automaton.make
                    ((pimpl_t.construct counting_stream one_based [0, 1, 2] 0).tworel.first.left
                      v0),
                  spec_automaton.make
                    ((pimpl_t.construct counting_stream one_based [0, 1, 2] 0).tworel.second.left
                      v0), 1,
                  ⟨(pimpl_t.construct counting_stream one_based [0, 1, 2] 0).rndgen.raw,
                    (pimpl_t.construct counting_stream one_based [0, 1, 2] 0).rndgen.pos
                      + 1⟩⟩)) :=
  attempt_start_vertex spec_automaton (pimpl_t.construct counting_stream one_based [0, 1, 2] 0)
    (simulation_result_t.fresh RESULT_NONE) (by decide) (by decide) rfl

/-- The attempt of the witness of C13 draws vertex 0, which has no module,
proceeds from vertex 1 and yields the pair (10, 20) after the one draw. -/
theorem one_based_attempt (r : simulation_result_t) :
    try_get_sample spec_automaton (pimpl_t.construct counting_stream one_based [0, 1, 2] 0) r
      = .ok (⟨10, 20, 1, r.failed_attempts⟩, ⟨one_based, ⟨counting_stream 0, 1⟩, 2, [0, 1, 2]⟩) := by
  simp [try_get_sample, pimpl_t.construct, lindis_max, lindis, counting_stream, start_vertex,
    get_modules, hop_loop, loop_cond, one_based, spec_automaton, conclude]

/-- C14: an attempt whose loop is left by its condition or by the `break`
(the one other way out, the singleton-fallback return, is reached only through
the read of an invalidated iterator), with the automatons `pa1` and `pa2`,
writes the pair
`(get_a_module pa1, get_a_module pa2)` when both have status SUCCESS and
`RESULT_NONE` into both components otherwise; and when both automatons have
status SUCCESS right after being seeded with the start vertex's sets (`going`
being false for two SUCCESS statuses), the loop body is not entered, only the
start draw is consumed and that pair of the seeded automatons is written. -/
theorem attempt_conclusion {α : Type} (A : player_automaton α) (p : pimpl_t)
    (r : simulation_result_t) (v0 : Nat)
    (hv0 : p.verts[(lindis p.lindis p.rndgen).1]? = some v0) :
    (∀ pa1 pa2 g,
      hop_loop A p.tworel p.lindis
          (((start_vertex p.tworel v0).2.1.length + (start_vertex p.tworel v0).2.2.length) * 2)
          (((start_vertex p.tworel v0).2.1.length + (start_vertex p.tworel v0).2.2.length) * 2)
          (first_walk A (start_vertex p.tworel v0) (lindis p.lindis p.rndgen).2)
        = .finished pa1 pa2 g →
      (A.get_status pa1 = pa_status_t.SUCCESS ∧ A.get_status pa2 = pa_status_t.SUCCESS →
        try_get_sample A p r
          = .ok (⟨A.get_a_module pa1, A.get_a_module pa2, 1, r.failed_attempts⟩,
              ⟨p.tworel, g, p.lindis, p.verts⟩)) ∧
      (¬ (A.get_status pa1 = pa_status_t.SUCCESS ∧ A.get_status pa2 = pa_status_t.SUCCESS) →
        try_get_sample A p r
          = .ok (⟨RESULT_NONE, RESULT_NONE, 1, r.failed_attempts⟩,
              ⟨p.tworel, g, p.lindis, p.verts⟩))) ∧
    (A.get_status (A.make (start_vertex p.tworel v0).2.1) = pa_status_t.SUCCESS →
      A.get_status (A.make (start_vertex p.tworel v0).2.2) = pa_status_t.SUCCESS →
      A.going pa_status_t.SUCCESS pa_status_t.SUCCESS = false →
      hop_loop_counted A p.tworel p.lindis
          (((start_vertex p.tworel v0).2.1.length + (start_vertex p.tworel v0).2.2.length) * 2)
          (((start_vertex p.tworel v0).2.1.length + (start_vertex p.tworel v0).2.2.length) * 2)
          (first_walk A (start_vertex p.tworel v0) (lindis p.lindis p.rndgen).2)
        = (.finished (A.make (start_vertex p.tworel v0).2.1)
            (A.make (start_vertex p.tworel v0).2.2) (lindis p.lindis p.rndgen).2, 0) ∧
      try_get_sample A p r
        = .ok (⟨A.get_a_module (A.make (start_vertex p.tworel v0).2.1),
              A.get_a_module (A.make (start_vertex p.tworel v0).2.2), 1, r.failed_attempts⟩,
            ⟨p.tworel, ⟨p.rndgen.raw, p.rndgen.pos + 1⟩, p.lindis, p.verts⟩)) := by
  constructor
  · intro pa1 pa2 g hloop
    rw [try_get_sample_eq A p r v0 hv0, hloop]
    constructor
    · intro hs
      simp only [conclude, if_pos hs]
    · intro hs
      simp only [conclude, if_neg hs]
  · intro h1 h2 hgoing
    have hc : loop_cond A
        (((start_vertex p.tworel v0).2.1.length + (start_vertex p.tworel v0).2.2.length) * 2)
        (first_walk A (start_vertex p.tworel v0) (lindis p.lindis p.rndgen).2) = false := by
      simp [loop_cond, first_walk, h1, h2, hgoing]
    have hcount : ∀ fuel, hop_loop_counted A p.tworel p.lindis
          (((start_vertex p.tworel v0).2.1.length + (start_vertex p.tworel v0).2.2.length) * 2)
          fuel (first_walk A (start_vertex p.tworel v0) (lindis p.lindis p.rndgen).2)
        = (.finished (A.make (start_vertex p.tworel v0).2.1)
            (A.make (start_vertex p.tworel v0).2.2) (lindis p.lindis p.rndgen).2, 0) := by
      intro fuel
      cases fuel <;> simp only [hop_loop_counted, hc, Bool.false_eq_true, if_false] <;> rfl
    refine ⟨hcount _, ?_⟩
    rw [try_get_sample_eq A p r v0 hv0, ← hop_loop_counted_fst, hcount]
    simp [conclude, h1, h2, lindis]

/-- Witness of C14: the simulator over Scenario A built with seed 5 draws the
position 1, vertex 1, whose sets are the one-module sets 10 and 21. -/
theorem attempt_conclusion_witness :
    (spec_automaton.get_status (spec_automaton.make
        (start_vertex (pimpl_t.construct counting_stream scenario_A
          [0, 1, 2, 3] 5).tworel 1).2.1) = pa_status_t.SUCCESS ∧
      spec_automaton.get_status (spec_automaton.make
        (start_vertex (pimpl_t.construct counting_stream scenario_A
          [0, 1, 2, 3] 5).tworel 1).2.2) = pa_status_t.SUCCESS ∧
      spec_automaton.going pa_status_t.SUCCESS pa_status_t.SUCCESS = false) ∧
    ((∀ pa1 pa2 g,
      hop_loop spec_automaton (pimpl_t.construct counting_stream scenario_A [0, 1, 2, 3] 5).tworel
          (pimpl_t.construct counting_stream scenario_A [0, 1, 2, 3] 5).lindis
          (((start_vertex (pimpl_t.construct counting_stream scenario_A
              [0, 1, 2, 3] 5).tworel 1).2.1.length
            + (start_vertex (pimpl_t.construct counting_stream scenario_A
              [0, 1, 2, 3] 5).tworel 1).2.2.length) * 2)
          (((start_vertex (pimpl_t.construct counting_stream scenario_A
              [0, 1, 2, 3] 5).tworel 1).2.1.length
            + (start_vertex (pimpl_t.construct counting_stream scenario_A
              [0, 1, 2, 3] 5).tworel 1).2.2.length) * 2)
          (first_walk spec_automaton
            (start_vertex (pimpl_t.construct counting_stream scenario_A [0, 1, 2, 3] 5).tworel 1)
            (lindis (pimpl_t.construct counting_stream scenario_A [0, 1, 2, 3] 5).lindis
              (pimpl_t.construct counting_stream scenario_A [0, 1, 2, 3] 5).rndgen).2)
        = .finished pa1 pa2 g →
      (spec_automaton.get_status pa1 = pa_status_t.SUCCESS ∧
          spec_automaton.get_status pa2 = pa_status_t.SUCCESS →
        try_get_sample spec_automaton
            (pimpl_t.construct counting_stream scenario_A [0, 1, 2, 3] 5)
            (simulation_result_t.fresh RESULT_NONE)
          = .ok (⟨spec_automaton.get_a_module pa1, spec_automaton.get_a_module pa2, 1,
                (simulation_result_t.fresh RESULT_NONE).failed_attempts⟩,
              ⟨(pimpl_t.construct counting_stream scenario_A [0, 1, 2, 3] 5).tworel, g,
                (pimpl_t.construct counting_stream scenario_A [0, 1, 2, 3] 5).lindis,
                (pimpl_t.construct counting_stream scenario_A [0, 1, 2, 3] 5).verts⟩)) ∧
      (¬ (spec_automaton.get_status pa1 = pa_status_t.SUCCESS ∧
          spec_automaton.get_status pa2 = pa_status_t.SUCCESS) →
        try_get_sample spec_automaton
            (pimpl_t.construct counting_stream scenario_A [0, 1, 2, 3] 5)
            (simulation_result_t.fresh RESULT_NONE)
          = .ok (⟨RESULT_NONE, RESULT_NONE, 1,
                (simulation_result_t.fresh RESULT_NONE).failed_attempts⟩,
              ⟨(pimpl_t.construct counting_stream scenario_A [0, 1, 2, 3] 5).tworel, g,
                (pimpl_t.construct counting_stream scenario_A [0, 1, 2, 3] 5).lindis,
                (pimpl_t.construct counting_stream scenario_A [0, 1, 2, 3] 5).verts⟩))) ∧
    (spec_automaton.get_status (spec_automaton.make
        (start_vertex (pimpl_t.construct counting_stream scenario_A
          [0, 1, 2, 3] 5).tworel 1).2.1) = pa_status_t.SUCCESS →
      spec_automaton.get_status (spec_automaton.make
        (start_vertex (pimpl_t.construct counting_stream scenario_A
          [0, 1, 2, 3] 5).tworel 1).2.2) = pa_status_t.SUCCESS →
      spec_automaton.going pa_status_t.SUCCESS pa_status_t.SUCCESS = false →
      hop_loop_counted spec_automaton
          (pimpl_t.construct counting_stream scenario_A [0, 1, 2, 3] 5).tworel
          (pimpl_t.construct counting_stream scenario_A [0, 1, 2, 3] 5).lindis
          (((start_vertex (pimpl_t.construct counting_stream scenario_A
              [0, 1, 2, 3] 5).tworel 1).2.1.length
            + (start_vertex (pimpl_t.construct counting_stream scenario_A
              [0, 1, 2, 3] 5).tworel 1).2.2.length) * 2)
          (((start_vertex (pimpl_t.construct counting_stream scenario_A
              [0, 1, 2, 3] 5).tworel 1).2.1.length
            + (start_vertex (pimpl_t.construct counting_stream scenario_A
              [0, 1, 2, 3] 5).tworel 1).2.2.length) * 2)
          (first_walk spec_automaton
            (start_vertex (pimpl_t.construct counting_stream scenario_A [0, 1, 2, 3] 5).tworel 1)
            (lindis (pimpl_t.construct counting_stream scenario_A [0, 1, 2, 3] 5).lindis
              (pimpl_t.construct counting_stream scenario_A [0, 1, 2, 3] 5).rndgen).2)
        = (.finished
            (spec_automaton.make (start_vertex (pimpl_t.construct counting_stream scenario_A
              [0, 1, 2, 3] 5).tworel 1).2.1)
            (spec_automaton.make (start_vertex (pimpl_t.construct counting_stream scenario_A
              [0, 1, 2, 3] 5).tworel 1).2.2)
            (lindis (pimpl_t.construct counting_stream scenario_A [0, 1, 2, 3] 5).lindis
              (pimpl_t.construct counting_stream scenario_A [0, 1, 2, 3] 5).rndgen).2, 0) ∧
      try_get_sample spec_automaton (pimpl_t.construct counting_stream scenario_A [0, 1, 2, 3] 5)
          (simulation_result_t.fresh RESULT_NONE)
        = .ok (⟨spec_automaton.get_a_module (spec_automaton.make
                (start_vertex (pimpl_t.construct counting_stream scenario_A
                  [0, 1, 2, 3] 5).tworel 1).2.1),
              spec_automaton.get_a_module (spec_automaton.make
                (start_vertex (pimpl_t.construct counting_stream scenario_A
                  [0, 1, 2, 3] 5).tworel 1).2.2), 1,
              (simulation_result_t.fresh RESULT_NONE).failed_attempts⟩,
            ⟨(pimpl_t.construct counting_stream scenario_A [0, 1, 2, 3] 5).tworel,
              ⟨(pimpl_t.construct counting_stream scenario_A [0, 1, 2, 3] 5).rndgen.raw,
                (pimpl_t.construct counting_stream scenario_A [0, 1, 2, 3] 5).rndgen.pos + 1⟩,
              (pimpl_t.construct counting_stream scenario_A [0, 1, 2, 3] 5).lindis,
              (pimpl_t.construct counting_stream scenario_A [0, 1, 2, 3] 5).verts⟩))) :=
  ⟨⟨by decide, by decide, by decide⟩,
    attempt_conclusion spec_automaton (pimpl_t.construct counting_stream scenario_A [0, 1, 2, 3] 5)
      (simulation_result_t.fresh RESULT_NONE) 1 (by decide)⟩

/-! ## Lemmas on the data-model invariant -/

/-- When one of the two module sets is non-empty, so is the set finally used
for the hop. -/
theorem choose_side_nonempty (iv2 : Nat) (rm1 rm2 : List Nat) (h : rm1 ≠ [] ∨ rm2 ≠ []) :
    (choose_side iv2 rm1 rm2).v2bms ≠ [] := by
  unfold choose_side
  by_cases hp : iv2 % 2 = 0 <;> cases rm1 <;> cases rm2 <;> simp_all

/-- The second selection of the singleton branch: the other side's set is not
empty, none of its modules has a one-member range, and the module picked from
it has a non-empty range; the vertex adopted is the member at position
`(iv2 + uvi)` modulo the range length, or its wrapped successor when that
member is the current vertex. -/
theorem singleton_branch_retry {α : Type} (A : player_automaton α) (tworel : two_relations)
    (vertex : Nat) (rm1 rm2 : List Nat) (pa1 pa2 : α) (iv2 uvi m m2 c : Nat)
    (hs : (if (choose_side iv2 rm1 rm2).v2first then rm2 else rm1).filter
        (fun v2mod => decide (((if (choose_side iv2 rm1 rm2).v2first then tworel.second
          else tworel.first).right v2mod).length = 1)) = [])
    (hm2 : nth_mod (if (choose_side iv2 rm1 rm2).v2first then rm2 else rm1) iv2 = some m2)
    (hc : nth_mod ((if (choose_side iv2 rm1 rm2).v2first then tworel.second
      else tworel.first).right m2) (iv2 + uvi) = some c) :
    ∃ t, ((if (choose_side iv2 rm1 rm2).v2first then tworel.second
        else tworel.first).right m2)[if c = vertex then
          wrap_next ((if (choose_side iv2 rm1 rm2).v2first then tworel.second
            else tworel.first).right m2).length
            ((iv2 + uvi) % ((if (choose_side iv2 rm1 rm2).v2first then tworel.second
              else tworel.first).right m2).length)
        else (iv2 + uvi) % ((if (choose_side iv2 rm1 rm2).v2first then tworel.second
          else tworel.first).right m2).length]? = some t ∧
      singleton_branch A tworel vertex pa1 pa2 iv2 uvi (choose_side iv2 rm1 rm2) m
        = adopt A tworel pa1 pa2 iv2 uvi t := by
  have ho : (if (choose_side iv2 rm1 rm2).v2first then rm2 else rm1) ≠ [] := by
    intro h
    rw [(nth_mod_eq_none _ _).2 h] at hm2
    cases hm2
  obtain ⟨hlen, hget⟩ := (nth_mod_eq_some _ _ _).1 hc
  have hidx : (iv2 + uvi) % ((if (choose_side iv2 rm1 rm2).v2first then tworel.second
      else tworel.first).right m2).length
      < ((if (choose_side iv2 rm1 rm2).v2first then tworel.second
        else tworel.first).right m2).length := Nat.mod_lt _ (Nat.pos_of_ne_zero hlen)
  have hlt : (if c = vertex then
        wrap_next ((if (choose_side iv2 rm1 rm2).v2first then tworel.second
          else tworel.first).right m2).length
          ((iv2 + uvi) % ((if (choose_side iv2 rm1 rm2).v2first then tworel.second
            else tworel.first).right m2).length)
      else (iv2 + uvi) % ((if (choose_side iv2 rm1 rm2).v2first then tworel.second
        else tworel.first).right m2).length)
      < ((if (choose_side iv2 rm1 rm2).v2first then tworel.second
        else tworel.first).right m2).length := by
    split
    · exact wrap_next_lt _ _ hidx
    · exact hidx
  have ht := List.getElem?_eq_getElem hlt
  refine ⟨_, ht, ?_⟩
  unfold singleton_branch
  simp only [choose_side_other, List.isEmpty_iff, ho, hs, if_false, if_true, hm2, hlen, hget, ht]

/-- The singleton branch runs into no undefined behaviour when every module of
the other side's set has a non-empty backward range. -/
theorem singleton_branch_defined {α : Type} (A : player_automaton α) (tworel : two_relations)
    (vertex : Nat) (rm1 rm2 : List Nat) (pa1 pa2 : α) (iv2 uvi m : Nat)
    (hY : ∀ m2, m2 ∈ (if (choose_side iv2 rm1 rm2).v2first then rm2 else rm1) →
      (if (choose_side iv2 rm1 rm2).v2first then tworel.second else tworel.first).right m2
        ≠ []) :
    singleton_branch A tworel vertex pa1 pa2 iv2 uvi (choose_side iv2 rm1 rm2) m
      ≠ .undefined := by
  intro habs
  rcases singleton_branch_cases A tworel vertex rm1 rm2 pa1 pa2 iv2 uvi m _ _ rfl rfl
    with ⟨_, hsb⟩ | ⟨w, _, hsb⟩ | ⟨ho, hs, _⟩
  · rw [hsb] at habs
    cases habs
  · rw [hsb] at habs
    cases habs
  · cases hm2 : nth_mod (if (choose_side iv2 rm1 rm2).v2first then rm2 else rm1) iv2 with
    | none => exact absurd ((nth_mod_eq_none _ _).1 hm2) ho
    | some m2 =>
      cases hc : nth_mod ((if (choose_side iv2 rm1 rm2).v2first then tworel.second
          else tworel.first).right m2) (iv2 + uvi) with
      | none => exact hY m2 (nth_mod_mem _ _ _ hm2) ((nth_mod_eq_none _ _).1 hc)
      | some c =>
        obtain ⟨t, _, hsb⟩ := singleton_branch_retry A tworel vertex rm1 rm2 pa1 pa2 iv2 uvi
          m m2 c hs hm2 hc
        rw [hsb] at habs
        simp [adopt] at habs

/-- Under the data-model invariant a hop from a vertex with a module in some
clustering runs into no undefined behaviour. -/
theorem hop_defined {α : Type} (A : player_automaton α) (tworel : two_relations)
    (vertex : Nat) (pa1 pa2 : α) (iv2 uvi : Nat)
    (hc1 : consistent tworel.first) (hc2 : consistent tworel.second)
    (hsome : tworel.first.left vertex ≠ [] ∨ tworel.second.left vertex ≠ []) :
    hop A tworel vertex (tworel.first.left vertex) (tworel.second.left vertex) pa1 pa2 iv2 uvi
      ≠ .undefined := by
  have hX : ∀ m, m ∈ (if (choose_side iv2 (tworel.first.left vertex)
        (tworel.second.left vertex)).v2first then tworel.first.left vertex
        else tworel.second.left vertex) →
      vertex ∈ (if (choose_side iv2 (tworel.first.left vertex)
        (tworel.second.left vertex)).v2first then tworel.first else tworel.second).right m := by
    intro m hm
    cases hside : (choose_side iv2 (tworel.first.left vertex)
        (tworel.second.left vertex)).v2first
    · rw [hside] at hm
      exact (hc2 vertex m).1 (by simpa using hm)
    · rw [hside] at hm
      exact (hc1 vertex m).1 (by simpa using hm)
  have hY : ∀ m, m ∈ (if (choose_side iv2 (tworel.first.left vertex)
        (tworel.second.left vertex)).v2first then tworel.second.left vertex
        else tworel.first.left vertex) →
      (if (choose_side iv2 (tworel.first.left vertex)
        (tworel.second.left vertex)).v2first then tworel.second else tworel.first).right m
        ≠ [] := by
    intro m hm hnil
    cases hside : (choose_side iv2 (tworel.first.left vertex)
        (tworel.second.left vertex)).v2first
    · rw [hside] at hm hnil
      have := (hc1 vertex m).1 (by simpa using hm)
      simp only [Bool.false_eq_true, if_false] at hnil
      rw [hnil] at this
      cases this
    · rw [hside] at hm hnil
      have := (hc2 vertex m).1 (by simpa using hm)
      simp only [if_true] at hnil
      rw [hnil] at this
      cases this
  have hne := choose_side_nonempty iv2 _ _ hsome
  rw [choose_side_v2bms] at hne
  cases hm : nth_mod (if (choose_side iv2 (tworel.first.left vertex)
      (tworel.second.left vertex)).v2first then tworel.first.left vertex
      else tworel.second.left vertex) iv2 with
  | none => exact absurd ((nth_mod_eq_none _ _).1 hm) hne
  | some m =>
    have hmem := hX m (nth_mod_mem _ _ _ hm)
    cases hv : nth_mod ((if (choose_side iv2 (tworel.first.left vertex)
        (tworel.second.left vertex)).v2first then tworel.first
        else tworel.second).right m) (iv2 + uvi) with
    | none =>
      rw [(nth_mod_eq_none _ _).1 hv] at hmem
      cases hmem
    | some v =>
      have hw := wrap_next_lt _ ((iv2 + uvi) % ((if (choose_side iv2 (tworel.first.left vertex)
        (tworel.second.left vertex)).v2first then tworel.first
        else tworel.second).right m).length)
        (Nat.mod_lt _ (Nat.pos_of_ne_zero ((nth_mod_eq_some _ _ _).1 hv).1))
      rw [hop_of_candidate A tworel vertex _ _ pa1 pa2 iv2 uvi m v hm hv,
        List.getElem?_eq_getElem hw]
      have key : ∀ x, (if x = vertex then
            singleton_branch A tworel vertex pa1 pa2 iv2 uvi
              (choose_side iv2 (tworel.first.left vertex) (tworel.second.left vertex)) m
          else adopt A tworel pa1 pa2 iv2 uvi x) ≠ .undefined := by
        intro x
        by_cases hx : x = vertex
        · rw [if_pos hx]
          exact singleton_branch_defined A tworel vertex _ _ pa1 pa2 iv2 uvi m hY
        · rw [if_neg hx]
          simp [adopt]
      by_cases hvv : v = vertex
      · rw [if_pos hvv]
        exact key _
      · rw [if_neg hvv]
        simp [adopt]

/-- Under the data-model invariant an adopted vertex has a module in some
clustering, and the module sets handed to the next iteration are its forward
lookups. -/
theorem hop_adopted_sync {α : Type} (A : player_automaton α) (tworel : two_relations)
    (vertex : Nat) (rm1 rm2 : List Nat) (pa1 pa2 q1 q2 : α) (iv2 uvi v : Nat)
    (r1 r2 : List Nat)
    (hc1 : consistent tworel.first) (hc2 : consistent tworel.second)
    (h : hop A tworel vertex rm1 rm2 pa1 pa2 iv2 uvi = .adopted v r1 r2 q1 q2) :
    r1 = tworel.first.left v ∧ r2 = tworel.second.left v ∧ (r1 ≠ [] ∨ r2 ≠ []) := by
  obtain ⟨hadopt, hfrom⟩ := hop_adopted_cases A tworel vertex rm1 rm2 pa1 pa2 q1 q2 iv2 uvi v
    r1 r2 h
  obtain ⟨_, hr1, hr2, _, _⟩ := adopt_eq_adopted A tworel pa1 pa2 q1 q2 iv2 uvi v v r1 r2 hadopt
  refine ⟨hr1, hr2, ?_⟩
  rw [hr1, hr2]
  rcases hfrom with ⟨_, m, _, hv⟩ | ⟨m2, c, _, _, _, hv⟩
  · cases hside : (choose_side iv2 rm1 rm2).v2first
    · rw [hside] at hv
      right
      exact List.ne_nil_of_mem ((hc2 v m).2 (by simpa using hv))
    · rw [hside] at hv
      left
      exact List.ne_nil_of_mem ((hc1 v m).2 (by simpa using hv))
  · have hmem := List.getElem?_mem hv
    cases hside : (choose_side iv2 rm1 rm2).v2first
    · rw [hside] at hmem
      left
      exact List.ne_nil_of_mem ((hc1 v m2).2 (by simpa using hmem))
    · rw [hside] at hmem
      right
      exact List.ne_nil_of_mem ((hc2 v m2).2 (by simpa using hmem))

/-- Under the data-model invariant the hop loop, entered from a state whose
module sets are the forward lookups of its vertex and of which one is not empty
when the body can be entered, runs into no undefined behaviour, provided no
hop reads the invalidated iterator of the singleton-fallback return. -/
theorem hop_loop_defined {α : Type} (A : player_automaton α) (tworel : two_relations)
    (b attempts : Nat) (hc1 : consistent tworel.first) (hc2 : consistent tworel.second)
    (hread : ∀ (s : walk_state α) (iv2 uvi : Nat), in_sync tworel s →
      hop A tworel s.vertex s.rm1 s.rm2 s.pa1 s.pa2 iv2 uvi ≠ .invalidated_read) :
    ∀ (fuel : Nat) (s : walk_state α), in_sync tworel s →
      (s.used_vertex_index < attempts → s.rm1 ≠ [] ∨ s.rm2 ≠ []) →
      hop_loop A tworel b attempts fuel s ≠ .undefined := by
  intro fuel
  induction fuel with
  | zero =>
    intro s _ _
    simp only [hop_loop]
    split <;> simp
  | succ fuel ih =>
    intro s hsync hsome
    by_cases hc : loop_cond A attempts s = true
    · have hlt : s.used_vertex_index < attempts := by
        simp only [loop_cond, Bool.and_eq_true, decide_eq_true_eq] at hc
        exact hc.2
      have hne := hsome hlt
      rw [hsync.1, hsync.2] at hne
      have hdef := hop_defined A tworel s.vertex s.pa1 s.pa2 (lindis b s.rndgen).1
        (s.used_vertex_index + 1) hc1 hc2 hne
      rw [← hsync.1, ← hsync.2] at hdef
      rw [hop_loop_enter A tworel b attempts fuel s hc]
      cases hh : hop A tworel s.vertex s.rm1 s.rm2 s.pa1 s.pa2 (lindis b s.rndgen).1
          (s.used_vertex_index + 1) with
      | adopted v r1 r2 q1 q2 =>
        obtain ⟨hr1, hr2, hne2⟩ := hop_adopted_sync A tworel s.vertex s.rm1 s.rm2 s.pa1 s.pa2
          q1 q2 _ _ v r1 r2 hc1 hc2 hh
        exact ih _ ⟨hr1, hr2⟩ (fun _ => hne2)
      | invalidated_read => exact absurd hh (hread s _ _ hsync)
      | dead_end => simp
      | undefined => exact absurd hh hdef
    · simp [hop_loop, hc]

/-- The loop state reached from the start vertex has the forward lookups of
its vertex as module sets. -/
theorem first_walk_sync {α : Type} (A : player_automaton α) (tworel : two_relations)
    (v0 : Nat) (g : randgen) : in_sync tworel (first_walk A (start_vertex tworel v0) g) := by
  unfold in_sync first_walk start_vertex get_modules
  simp only
  split <;> exact ⟨rfl, rfl⟩

/-- Under the data-model invariant an attempt whose start draw is a position
of the vertex set runs into no undefined behaviour, provided no hop reads the
invalidated iterator of the singleton-fallback return. -/
theorem attempt_defined {α : Type} (A : player_automaton α) (p : pimpl_t)
    (r : simulation_result_t) (v0 : Nat)
    (hc1 : consistent p.tworel.first) (hc2 : consistent p.tworel.second)
    (hread : ∀ (s : walk_state α) (iv2 uvi : Nat), in_sync p.tworel s →
      hop A p.tworel s.vertex s.rm1 s.rm2 s.pa1 s.pa2 iv2 uvi ≠ .invalidated_read)
    (hv0 : p.verts[(lindis p.lindis p.rndgen).1]? = some v0) :
    try_get_sample A p r ≠ .undefined := by
  rw [try_get_sample_eq A p r v0 hv0]
  have hloop := hop_loop_defined A p.tworel p.lindis
    (((start_vertex p.tworel v0).2.1.length + (start_vertex p.tworel v0).2.2.length) * 2)
    hc1 hc2 hread
    (((start_vertex p.tworel v0).2.1.length + (start_vertex p.tworel v0).2.2.length) * 2)
    (first_walk A (start_vertex p.tworel v0) (lindis p.lindis p.rndgen).2)
    (first_walk_sync A p.tworel v0 _)
    (by
      intro hlt
      simp only [first_walk] at hlt ⊢
      by_contra hno
      simp only [not_or, not_not] at hno
      rw [hno.1, hno.2] at hlt
      simp at hlt)
  revert hloop
  generalize hop_loop A p.tworel p.lindis _ _ _ = e
  intro hloop
  cases e with
  | finished pa1 pa2 g =>
    simp only [conclude]
    split <;> simp
  | undefined => exact absurd rfl hloop
  | timeout => simp [conclude]

/-- In a range without repeats a vertex sits at one position only. -/
theorem nodup_position (l : List Nat) (h : l.Nodup) (i j x : Nat)
    (hi : l[i]? = some x) (hj : l[j]? = some x) : i = j := by
  obtain ⟨hi1, hi2⟩ := List.getElem?_eq_some.1 hi
  obtain ⟨hj1, hj2⟩ := List.getElem?_eq_some.1 hj
  exact (List.Nodup.getElem_inj_iff h).1 (hi2.trans hj2.symm)

/-- A range without repeats whose member at a position and at the wrapped
successor of that position are the same vertex is that vertex alone. -/
theorem singleton_of_wrap (l : List Nat) (h : l.Nodup) (i x : Nat)
    (hi : l[i % l.length]? = some x) (hw : l[wrap_next l.length (i % l.length)]? = some x) :
    l = [x] := by
  have hpos := nodup_position l h _ _ x hw hi
  obtain ⟨hlt, _⟩ := List.getElem?_eq_some.1 hi
  have hlen : l.length = 1 := by
    by_contra hne
    exact wrap_next_ne l.length (i % l.length) (by omega) hpos
  obtain ⟨y, rfl⟩ := List.length_eq_one.1 hlen
  simp only [List.length_singleton, Nat.mod_one, List.getElem?_cons_zero,
    Option.some.injEq] at hi
  rw [hi]

/-- A one-member range that holds a vertex is that vertex alone. -/
theorem singleton_of_mem (l : List Nat) (x : Nat) (hlen : l.length = 1) (hx : x ∈ l) :
    l = [x] := by
  obtain ⟨y, rfl⟩ := List.length_eq_one.1 hlen
  simp only [List.mem_singleton] at hx
  rw [hx]

/-- The relations of `overlap` are consistent and without repeats. -/
theorem overlap_invariant :
    consistent overlap.first ∧ consistent overlap.second ∧
    no_repeats overlap.first ∧ no_repeats overlap.second := by
  refine ⟨?_, ?_, ?_, ?_⟩
  · intro v m
    simp only [overlap]
    split_ifs <;> simp_all
  · intro v m
    simp only [overlap]
    split_ifs <;> simp_all
  · intro m
    simp only [overlap]
    split_ifs <;> simp
  · intro m
    simp only [overlap]
    split_ifs <;> simp

/-- The relations of `singles` are consistent and without repeats. -/
theorem singles_invariant :
    consistent singles.first ∧ consistent singles.second ∧
    no_repeats singles.first ∧ no_repeats singles.second := by
  refine ⟨?_, ?_, ?_, ?_⟩
  · intro v m
    simp only [singles]
    split_ifs <;> simp_all
  · intro v m
    simp only [singles]
    split_ifs <;> simp_all
  · intro m
    simp only [singles]
    split_ifs <;> simp
  · intro m
    simp only [singles]
    split_ifs <;> simp

/-- Out of the second selection of the singleton branch, in ranges without
repeats, comes a vertex that is not the current one. -/
theorem retry_target_ne (l : List Nat) (h : l.Nodup) (i vertex c v : Nat)
    (hlen : l.length ≠ 1) (hc : nth_mod l i = some c)
    (hv : l[if c = vertex then wrap_next l.length (i % l.length) else i % l.length]? = some v) :
    v ≠ vertex := by
  obtain ⟨hne, hget⟩ := (nth_mod_eq_some _ _ _).1 hc
  by_cases hcv : c = vertex
  · rw [if_pos hcv] at hv
    intro hvv
    rw [hvv, ← hcv] at hv
    exact wrap_next_ne l.length (i % l.length) (by omega) (nodup_position l h _ _ c hv hget)
  · rw [if_neg hcv, hget] at hv
    simp only [Option.some.injEq] at hv
    rw [← hv]
    exact hcv

/-- The singleton-fallback return of a hop: the selected module `m`, whose
range holds the current vertex at the candidate position and at its wrapped
successor, and the module `w` picked among the modules of the other side's set
that have a one-member range. -/
theorem hop_invalidated_cases {α : Type} (A : player_automaton α) (tworel : two_relations)
    (vertex : Nat) (rm1 rm2 : List Nat) (pa1 pa2 : α) (iv2 uvi : Nat)
    (h : hop A tworel vertex rm1 rm2 pa1 pa2 iv2 uvi = .invalidated_read) :
    ∃ m w, nth_mod (if (choose_side iv2 rm1 rm2).v2first then rm1 else rm2) iv2 = some m ∧
      nth_mod ((if (choose_side iv2 rm1 rm2).v2first then tworel.first
        else tworel.second).right m) (iv2 + uvi) = some vertex ∧
      ((if (choose_side iv2 rm1 rm2).v2first then tworel.first
        else tworel.second).right m)[wrap_next
          ((if (choose_side iv2 rm1 rm2).v2first then tworel.first
            else tworel.second).right m).length
          ((iv2 + uvi) % ((if (choose_side iv2 rm1 rm2).v2first then tworel.first
            else tworel.second).right m).length)]? = some vertex ∧
      nth_mod ((if (choose_side iv2 rm1 rm2).v2first then rm2 else rm1).filter
        (fun v2mod => decide (((if (choose_side iv2 rm1 rm2).v2first then tworel.second
          else tworel.first).right v2mod).length = 1))) (iv2 + uvi) = some w := by
  rcases hop_cases A tworel vertex rm1 rm2 pa1 pa2 iv2 uvi with hu | ⟨m, c, hm, hc, hrest⟩
  · rw [hu] at h
    cases h
  · rcases hrest with ⟨_, hhop⟩ | ⟨hcv, v2, hv2, ⟨_, hhop⟩ | ⟨hv2v, hhop⟩⟩
    · rw [hhop] at h
      simp [adopt] at h
    · rw [hhop] at h
      simp [adopt] at h
    · rw [hhop] at h
      rcases singleton_branch_cases A tworel vertex rm1 rm2 pa1 pa2 iv2 uvi m _ _ rfl rfl
        with ⟨_, hsb⟩ | ⟨w, hw, _⟩ | ⟨_, hs, hsb | ⟨m2, c2, t, hm2, hc2, ht, hsb⟩⟩
      · rw [hsb] at h
        cases h
      · rw [hcv] at hc
        rw [hv2v] at hv2
        exact ⟨m, w, hm, hc, hv2, hw⟩
      · rw [hsb] at h
        cases h
      · rw [hsb] at h
        simp [adopt] at h

/-- Under the data-model invariant, in ranges without repeats, the two modules
of a singleton-fallback return, the selected module `m` and the one-member
module `w`, both have the current vertex as their one member. -/
theorem hop_invalidated_singletons {α : Type} (A : player_automaton α) (tworel : two_relations)
    (vertex : Nat) (pa1 pa2 : α) (iv2 uvi : Nat)
    (hc1 : consistent tworel.first) (hc2 : consistent tworel.second)
    (hn1 : no_repeats tworel.first) (hn2 : no_repeats tworel.second)
    (h : hop A tworel vertex (tworel.first.left vertex) (tworel.second.left vertex)
      pa1 pa2 iv2 uvi = .invalidated_read) :
    ∃ m w,
      nth_mod (if (choose_side iv2 (tworel.first.left vertex)
          (tworel.second.left vertex)).v2first then tworel.first.left vertex
        else tworel.second.left vertex) iv2 = some m ∧
      nth_mod ((if (choose_side iv2 (tworel.first.left vertex)
          (tworel.second.left vertex)).v2first then tworel.second.left vertex
        else tworel.first.left vertex).filter
        (fun v2mod => decide (((if (choose_side iv2 (tworel.first.left vertex)
          (tworel.second.left vertex)).v2first then tworel.second
          else tworel.first).right v2mod).length = 1))) (iv2 + uvi) = some w ∧
      (if (choose_side iv2 (tworel.first.left vertex)
          (tworel.second.left vertex)).v2first then tworel.first
        else tworel.second).right m = [vertex] ∧
      (if (choose_side iv2 (tworel.first.left vertex)
          (tworel.second.left vertex)).v2first then tworel.second
        else tworel.first).right w = [vertex] := by
  obtain ⟨m, w, hm, hc, hsucc, hw⟩ :=
    hop_invalidated_cases A tworel vertex _ _ pa1 pa2 iv2 uvi h
  obtain ⟨_, hget⟩ := (nth_mod_eq_some _ _ _).1 hc
  have hwm := List.mem_filter.1 (nth_mod_mem _ _ _ hw)
  refine ⟨m, w, hm, hw, ?_, ?_⟩
  · cases hside : (choose_side iv2 (tworel.first.left vertex)
        (tworel.second.left vertex)).v2first
    · rw [hside] at hget hsucc
      simp only [Bool.false_eq_true, if_false] at hget hsucc ⊢
      exact singleton_of_wrap _ (hn2 m) (iv2 + uvi) vertex hget hsucc
    · rw [hside] at hget hsucc
      simp only [if_true] at hget hsucc ⊢
      exact singleton_of_wrap _ (hn1 m) (iv2 + uvi) vertex hget hsucc
  · have hlen := hwm.2
    have hmem := hwm.1
    cases hside : (choose_side iv2 (tworel.first.left vertex)
        (tworel.second.left vertex)).v2first
    · rw [hside] at hlen hmem
      simp only [Bool.false_eq_true, if_false, decide_eq_true_eq] at hlen hmem ⊢
      exact singleton_of_mem _ vertex hlen ((hc1 vertex w).1 hmem)
    · rw [hside] at hlen hmem
      simp only [if_true, decide_eq_true_eq] at hlen hmem ⊢
      exact singleton_of_mem _ vertex hlen ((hc2 vertex w).1 hmem)

/-- When the backward ranges of clustering B hold no vertex twice and none of
them has exactly one member, no hop reaches the singleton-fallback return: a
module of clustering B is never a module with the current vertex alone, and
the other side's set, when it is that of clustering B, holds no one-member
module. -/
theorem hop_reads_no_invalidated_iterator {α : Type} (A : player_automaton α)
    (tworel : two_relations) (vertex : Nat) (rm1 rm2 : List Nat) (pa1 pa2 : α) (iv2 uvi : Nat)
    (hn2 : no_repeats tworel.second) (hlen : ∀ m, (tworel.second.right m).length ≠ 1) :
    hop A tworel vertex rm1 rm2 pa1 pa2 iv2 uvi ≠ .invalidated_read := by
  intro h
  obtain ⟨m, w, _, hc, hsucc, hw⟩ :=
    hop_invalidated_cases A tworel vertex rm1 rm2 pa1 pa2 iv2 uvi h
  obtain ⟨_, hget⟩ := (nth_mod_eq_some _ _ _).1 hc
  have hwm := (List.mem_filter.1 (nth_mod_mem _ _ _ hw)).2
  cases hside : (choose_side iv2 rm1 rm2).v2first
  · rw [hside] at hget hsucc
    simp only [Bool.false_eq_true, if_false] at hget hsucc
    have hone := singleton_of_wrap _ (hn2 m) (iv2 + uvi) vertex hget hsucc
    exact hlen m (by rw [hone]; rfl)
  · rw [hside] at hwm
    simp only [if_true, decide_eq_true_eq] at hwm
    exact hlen w hwm

/-- The relations of `fixup` are consistent and without repeats. -/
theorem fixup_invariant :
    consistent fixup.first ∧ consistent fixup.second ∧
    no_repeats fixup.first ∧ no_repeats fixup.second := by
  refine ⟨?_, ?_, ?_, ?_⟩
  · intro v m
    simp only [fixup]
    split_ifs <;> simp_all
  · intro v m
    simp only [fixup]
    split_ifs <;> simp_all
  · intro m
    simp only [fixup]
    split_ifs <;> simp
  · intro m
    simp only [fixup]
    split_ifs <;> simp

/-- On `fixup` no hop reaches the singleton-fallback return: no module of
clustering B has exactly one member. -/
theorem fixup_reads_no_invalidated_iterator {α : Type} (A : player_automaton α)
    (s : walk_state α) (iv2 uvi : Nat) :
    hop A fixup s.vertex s.rm1 s.rm2 s.pa1 s.pa2 iv2 uvi ≠ .invalidated_read := by
  apply hop_reads_no_invalidated_iterator A fixup s.vertex s.rm1 s.rm2 s.pa1 s.pa2 iv2 uvi
    fixup_invariant.2.2.2
  intro m
  simp only [fixup]
  split_ifs <;> simp

/-- The first hop on `singles` from vertex 0 with draw 1 reaches the
singleton-fallback return: module 11 of clustering A holds vertex 0 only and
module 21 of clustering B has one member. -/
theorem singles_hop :
    hop spec_automaton singles singles_walk.vertex singles_walk.rm1 singles_walk.rm2
        singles_walk.pa1 singles_walk.pa2 1 2 = .invalidated_read := by
  simp [hop, choose_side, nth_mod, wrap_next, singleton_branch, singles, singles_walk,
    spec_automaton]

/-- The first hop on `fixup` from vertex 0 with draw 1: module 11 holds
vertex 0 only, no module of clustering B has a one-member range, and the second
selection adopts vertex 1 from module 21. -/
theorem fixup_hop :
    hop spec_automaton fixup fixup_walk.vertex fixup_walk.rm1 fixup_walk.rm2
        fixup_walk.pa1 fixup_walk.pa2 1 2
      = .adopted 1 [10] [20, 21] ⟨[10], true⟩ ⟨[20, 21], true⟩ := by
  simp [hop, choose_side, nth_mod, wrap_next, singleton_branch, adopt, get_modules, fixup,
    fixup_walk, spec_automaton]

/-! ## The data-model invariant: claims C16 to C18 -/

/-- C16: when no backward range holds a vertex twice, a hop (the loop body
entered at state `s`, with draw `iv2` and `uvi` the incremented
`used_vertex_index`) that adopts a vertex adopts one that is not the current
vertex, also when the vertex comes out of the second selection of the
singleton fix-up. -/
theorem no_self_hop {α : Type} (A : player_automaton α) (tworel : two_relations)
    (b attempts fuel : Nat) (s : walk_state α) (iv2 uvi v : Nat) (r1 r2 : List Nat)
    (q1 q2 : α)
    (hn1 : no_repeats tworel.first) (hn2 : no_repeats tworel.second)
    (hcond : loop_cond A attempts s = true)
    (hiv2 : iv2 = (lindis b s.rndgen).1)
    (huvi : uvi = s.used_vertex_index + 1)
    (hhop : hop A tworel s.vertex s.rm1 s.rm2 s.pa1 s.pa2 iv2 uvi = .adopted v r1 r2 q1 q2) :
    v ≠ s.vertex ∧
    hop_loop A tworel b attempts (fuel + 1) s
      = hop_loop A tworel b attempts fuel ⟨v, r1, r2, q1, q2, uvi, (lindis b s.rndgen).2⟩ := by
  constructor
  · obtain ⟨_, hfrom⟩ := hop_adopted_cases A tworel s.vertex s.rm1 s.rm2 s.pa1 s.pa2 q1 q2
      iv2 uvi v r1 r2 hhop
    rcases hfrom with ⟨hne, _⟩ | ⟨m2, c, hm2, hs, hc, hv⟩
    · exact hne
    · have hlen : ((if (choose_side iv2 s.rm1 s.rm2).v2first then tworel.second
          else tworel.first).right m2).length ≠ 1 := by
        have := (List.filter_eq_nil_iff.1 hs) m2 hm2
        simpa using this
      have hnd : ((if (choose_side iv2 s.rm1 s.rm2).v2first then tworel.second
          else tworel.first).right m2).Nodup := by
        cases (choose_side iv2 s.rm1 s.rm2).v2first
        · exact hn1 m2
        · exact hn2 m2
      exact retry_target_ne _ hnd (iv2 + uvi) s.vertex c v hlen hc hv
  · rw [hop_loop_enter A tworel b attempts fuel s hcond, ← hiv2, ← huvi, hhop]

/-- Witness of C16: the first hop on `fixup` from vertex 0, which goes
through the second selection of the singleton fix-up and adopts vertex 1. -/
theorem no_self_hop_witness :
    1 ≠ fixup_walk.vertex ∧
    hop_loop spec_automaton fixup 1 8 (7 + 1) fixup_walk
      = hop_loop spec_automaton fixup 1 8 7
          ⟨1, [10], [20, 21], ⟨[10], true⟩, ⟨[20, 21], true⟩, 2,
            (lindis 1 fixup_walk.rndgen).2⟩ :=
  no_self_hop spec_automaton fixup 1 8 7 fixup_walk 1 2 1 [10] [20, 21] ⟨[10], true⟩
    ⟨[20, 21], true⟩ fixup_invariant.2.2.1 fixup_invariant.2.2.2 (by decide) (by decide) rfl
    fixup_hop

/-- C17: with consistent relations, for an attempt whose start draw is a
position of the vertex set: the loop is reached in a state whose module sets
are the forward lookups of its vertex, one of them non-empty when the body can
be entered; in every iteration from such a state the set finally selected is
not empty, the current vertex is in the backward range of each of its modules
and of each module of the other side's set (so every range that is indexed is
non-empty), the hop runs into no modulo by zero and no read outside a range
(the outcome `undefined` of a hop), and an adopted vertex again has a module
in some clustering; hence, when no hop reads the invalidated iterator of the
singleton-fallback return, the loop and the attempt run into no undefined
behaviour and the attempt completes. -/
theorem guarded_indexing {α : Type} (A : player_automaton α) (p : pimpl_t)
    (r : simulation_result_t) (v0 : Nat)
    (hc1 : consistent p.tworel.first) (hc2 : consistent p.tworel.second)
    (hv0 : p.verts[(lindis p.lindis p.rndgen).1]? = some v0) :
    (in_sync p.tworel (first_walk A (start_vertex p.tworel v0) (lindis p.lindis p.rndgen).2) ∧
      (1 < ((start_vertex p.tworel v0).2.1.length
          + (start_vertex p.tworel v0).2.2.length) * 2 →
        (start_vertex p.tworel v0).2.1 ≠ [] ∨ (start_vertex p.tworel v0).2.2 ≠ [])) ∧
    (∀ (s : walk_state α) (iv2 uvi : Nat), in_sync p.tworel s →
      (s.rm1 ≠ [] ∨ s.rm2 ≠ []) →
      (choose_side iv2 s.rm1 s.rm2).v2bms ≠ [] ∧
      (∀ m, m ∈ (choose_side iv2 s.rm1 s.rm2).v2bms →
        s.vertex ∈ (if (choose_side iv2 s.rm1 s.rm2).v2first then p.tworel.first
          else p.tworel.second).right m) ∧
      (∀ m2, m2 ∈ (if (choose_side iv2 s.rm1 s.rm2).v2first then s.rm2 else s.rm1) →
        s.vertex ∈ (if (choose_side iv2 s.rm1 s.rm2).v2first then p.tworel.second
          else p.tworel.first).right m2) ∧
      hop A p.tworel s.vertex s.rm1 s.rm2 s.pa1 s.pa2 iv2 uvi ≠ .undefined ∧
      (∀ v r1 r2 q1 q2,
        hop A p.tworel s.vertex s.rm1 s.rm2 s.pa1 s.pa2 iv2 uvi = .adopted v r1 r2 q1 q2 →
        r1 = p.tworel.first.left v ∧ r2 = p.tworel.second.left v ∧ (r1 ≠ [] ∨ r2 ≠ []))) ∧
    ((∀ (s : walk_state α) (iv2 uvi : Nat), in_sync p.tworel s →
        hop A p.tworel s.vertex s.rm1 s.rm2 s.pa1 s.pa2 iv2 uvi ≠ .invalidated_read) →
      hop_loop A p.tworel p.lindis
          (((start_vertex p.tworel v0).2.1.length + (start_vertex p.tworel v0).2.2.length) * 2)
          (((start_vertex p.tworel v0).2.1.length + (start_vertex p.tworel v0).2.2.length) * 2)
          (first_walk A (start_vertex p.tworel v0) (lindis p.lindis p.rndgen).2) ≠ .undefined ∧
      try_get_sample A p r ≠ .undefined ∧
      ∃ r1 p1, try_get_sample A p r = .ok (r1, p1)) := by
  have hnonempty : 1 < ((start_vertex p.tworel v0).2.1.length
        + (start_vertex p.tworel v0).2.2.length) * 2 →
      (start_vertex p.tworel v0).2.1 ≠ [] ∨ (start_vertex p.tworel v0).2.2 ≠ [] := by
    intro hlt
    by_contra hno
    simp only [not_or, not_not] at hno
    rw [hno.1, hno.2] at hlt
    simp at hlt
  refine ⟨⟨first_walk_sync A p.tworel v0 _, hnonempty⟩, ?_, ?_⟩
  · intro s iv2 uvi hsync hsome
    refine ⟨choose_side_nonempty iv2 _ _ hsome, ?_, ?_, ?_, ?_⟩
    · intro m hm
      rw [choose_side_v2bms] at hm
      cases hside : (choose_side iv2 s.rm1 s.rm2).v2first
      · rw [hside] at hm
        simp only [Bool.false_eq_true, if_false] at hm ⊢
        rw [hsync.2] at hm
        exact (hc2 s.vertex m).1 hm
      · rw [hside] at hm
        simp only [if_true] at hm ⊢
        rw [hsync.1] at hm
        exact (hc1 s.vertex m).1 hm
    · intro m2 hm2
      cases hside : (choose_side iv2 s.rm1 s.rm2).v2first
      · rw [hside] at hm2
        simp only [Bool.false_eq_true, if_false] at hm2 ⊢
        rw [hsync.1] at hm2
        exact (hc1 s.vertex m2).1 hm2
      · rw [hside] at hm2
        simp only [if_true] at hm2 ⊢
        rw [hsync.2] at hm2
        exact (hc2 s.vertex m2).1 hm2
    · have hne := hsome
      rw [hsync.1, hsync.2] at hne ⊢
      exact hop_defined A p.tworel s.vertex s.pa1 s.pa2 iv2 uvi hc1 hc2 hne
    · intro v r1 r2 q1 q2 hh
      exact hop_adopted_sync A p.tworel s.vertex s.rm1 s.rm2 s.pa1 s.pa2 q1 q2 iv2 uvi v r1 r2
        hc1 hc2 hh
  · intro hread
    have hdef := attempt_defined A p r v0 hc1 hc2 hread hv0
    refine ⟨hop_loop_defined A p.tworel p.lindis _ hc1 hc2 hread _ _
      (first_walk_sync A p.tworel v0 _) (fun hlt => hnonempty hlt), hdef, ?_⟩
    have hfuel := attempt_fuel_suffices A p r
    cases htry : try_get_sample A p r with
    | ok b => exact ⟨b.1, b.2, rfl⟩
    | undefined => exact absurd htry hdef
    | timeout => exact absurd htry hfuel

/-- Witness of C17: the simulator `fixup_start` over the consistent input
`fixup`, whose start draw is the position 0; on `fixup` no hop reads the
invalidated iterator. -/
theorem guarded_indexing_witness :
    (∀ (s : walk_state candidate_set) (iv2 uvi : Nat),
      hop spec_automaton fixup_start.tworel s.vertex s.rm1 s.rm2 s.pa1 s.pa2 iv2 uvi
        ≠ .invalidated_read) ∧
    ((in_sync fixup_start.tworel (first_walk spec_automaton (start_vertex fixup_start.tworel 0) (lindis fixup_start.lindis fixup_start.rndgen).2) ∧
      (1 < ((start_vertex fixup_start.tworel 0).2.1.length
          + (start_vertex fixup_start.tworel 0).2.2.length) * 2 →
        (start_vertex fixup_start.tworel 0).2.1 ≠ [] ∨ (start_vertex fixup_start.tworel 0).2.2 ≠ [])) ∧
    (∀ (s : walk_state candidate_set) (iv2 uvi : Nat), in_sync fixup_start.tworel s →
      (s.rm1 ≠ [] ∨ s.rm2 ≠ []) →
      (choose_side iv2 s.rm1 s.rm2).v2bms ≠ [] ∧
      (∀ m, m ∈ (choose_side iv2 s.rm1 s.rm2).v2bms →
        s.vertex ∈ (if (choose_side iv2 s.rm1 s.rm2).v2first then fixup_start.tworel.first
          else fixup_start.tworel.second).right m) ∧
      (∀ m2, m2 ∈ (if (choose_side iv2 s.rm1 s.rm2).v2first then s.rm2 else s.rm1) →
        s.vertex ∈ (if (choose_side iv2 s.rm1 s.rm2).v2first then fixup_start.tworel.second
          else fixup_start.tworel.first).right m2) ∧
      hop spec_automaton fixup_start.tworel s.vertex s.rm1 s.rm2 s.pa1 s.pa2 iv2 uvi ≠ .undefined ∧
      (∀ v r1 r2 q1 q2,
        hop spec_automaton fixup_start.tworel s.vertex s.rm1 s.rm2 s.pa1 s.pa2 iv2 uvi = .adopted v r1 r2 q1 q2 →
        r1 = fixup_start.tworel.first.left v ∧ r2 = fixup_start.tworel.second.left v ∧ (r1 ≠ [] ∨ r2 ≠ []))) ∧
    ((∀ (s : walk_state candidate_set) (iv2 uvi : Nat), in_sync fixup_start.tworel s →
        hop spec_automaton fixup_start.tworel s.vertex s.rm1 s.rm2 s.pa1 s.pa2 iv2 uvi
          ≠ .invalidated_read) →
      hop_loop spec_automaton fixup_start.tworel fixup_start.lindis
          (((start_vertex fixup_start.tworel 0).2.1.length + (start_vertex fixup_start.tworel 0).2.2.length) * 2)
          (((start_vertex fixup_start.tworel 0).2.1.length + (start_vertex fixup_start.tworel 0).2.2.length) * 2)
          (first_walk spec_automaton (start_vertex fixup_start.tworel 0) (lindis fixup_start.lindis fixup_start.rndgen).2) ≠ .undefined ∧
      try_get_sample spec_automaton fixup_start (simulation_result_t.fresh RESULT_NONE) ≠ .undefined ∧
      ∃ r1 p1, try_get_sample spec_automaton fixup_start (simulation_result_t.fresh RESULT_NONE) = .ok (r1, p1))) :=
  ⟨fun s iv2 uvi => fixup_reads_no_invalidated_iterator spec_automaton s iv2 uvi,
    guarded_indexing spec_automaton fixup_start (simulation_result_t.fresh RESULT_NONE) 0
      fixup_invariant.1 fixup_invariant.2.1 (by decide)⟩

/-- C18 (divergence): with consistent relations whose backward ranges hold no
vertex twice, at a hop of the walk (the loop body entered at a state `s` whose
module sets are the forward lookups of its vertex, with draw `iv2` and `uvi`
the incremented `used_vertex_index`) that takes the singleton-fallback return,
the two modules the branch has picked, the selected module `m` and the
one-member module `w` of the other side's set, each have the current vertex of
`s` as their one member in their own clustering; but the pair is not written
in a defined way: the component meant for `m` is read through the iterator
that the move-assignment of line 174 has invalidated, so the loop and what the
attempt writes into `result` are undefined. -/
theorem fallback_sample_undefined {α : Type} (A : player_automaton α) (p : pimpl_t)
    (r : simulation_result_t) (attempts fuel : Nat) (s : walk_state α)
    (iv2 uvi : Nat) (side : Bool)
    (hc1 : consistent p.tworel.first) (hc2 : consistent p.tworel.second)
    (hn1 : no_repeats p.tworel.first) (hn2 : no_repeats p.tworel.second)
    (hsync : in_sync p.tworel s)
    (hcond : loop_cond A attempts s = true)
    (hiv2 : iv2 = (lindis p.lindis s.rndgen).1)
    (huvi : uvi = s.used_vertex_index + 1)
    (hside : side = (choose_side iv2 s.rm1 s.rm2).v2first)
    (hhop : hop A p.tworel s.vertex s.rm1 s.rm2 s.pa1 s.pa2 iv2 uvi = .invalidated_read) :
    (∃ m w, nth_mod (if side then s.rm1 else s.rm2) iv2 = some m ∧
      nth_mod ((if side then s.rm2 else s.rm1).filter
        (fun v2mod => decide (((if side then p.tworel.second else p.tworel.first).right
          v2mod).length = 1))) (iv2 + uvi) = some w ∧
      (if side then p.tworel.first else p.tworel.second).right m = [s.vertex] ∧
      (if side then p.tworel.second else p.tworel.first).right w = [s.vertex]) ∧
    hop_loop A p.tworel p.lindis attempts (fuel + 1) s = .undefined ∧
    conclude A p r (hop_loop A p.tworel p.lindis attempts (fuel + 1) s) = .undefined := by
  subst hside
  have hloop : hop_loop A p.tworel p.lindis attempts (fuel + 1) s = .undefined := by
    rw [hop_loop_enter A p.tworel p.lindis attempts fuel s hcond, ← hiv2, ← huvi, hhop]
  refine ⟨?_, hloop, by rw [hloop]; rfl⟩
  have h2 := hhop
  rw [hsync.1, hsync.2] at h2
  obtain ⟨m, w, hm, hw, h1, hw1⟩ := hop_invalidated_singletons A p.tworel s.vertex s.pa1 s.pa2
    iv2 uvi hc1 hc2 hn1 hn2 h2
  rw [← hsync.1, ← hsync.2] at hm hw h1 hw1
  exact ⟨m, w, hm, hw, h1, hw1⟩

/-- Witness of C18 (divergence): the first hop of the attempt of
`singles_start`, from vertex 0 with draw 1: module 11 of clustering A and
module 21 of clustering B both hold vertex 0 only, and the hop reads the
invalidated iterator. -/
theorem fallback_sample_undefined_witness :
    (∃ m w, nth_mod (if true then singles_walk.rm1 else singles_walk.rm2) 1 = some m ∧
      nth_mod ((if true then singles_walk.rm2 else singles_walk.rm1).filter
        (fun v2mod => decide (((if true then singles_start.tworel.second
          else singles_start.tworel.first).right v2mod).length = 1))) (1 + 2) = some w ∧
      (if true then singles_start.tworel.first else singles_start.tworel.second).right m
        = [singles_walk.vertex] ∧
      (if true then singles_start.tworel.second else singles_start.tworel.first).right w
        = [singles_walk.vertex]) ∧
    hop_loop spec_automaton singles_start.tworel singles_start.lindis 8 (7 + 1) singles_walk
      = .undefined ∧
    conclude spec_automaton singles_start (simulation_result_t.fresh RESULT_NONE)
        (hop_loop spec_automaton singles_start.tworel singles_start.lindis 8 (7 + 1)
          singles_walk) = .undefined :=
  fallback_sample_undefined spec_automaton singles_start (simulation_result_t.fresh RESULT_NONE)
    8 7 singles_walk 1 2 true singles_invariant.1 singles_invariant.2.1
    singles_invariant.2.2.1 singles_invariant.2.2.2 ⟨rfl, rfl⟩ (by decide) (by decide) rfl
    (by decide) singles_hop

/-! ## Lemmas on termination and on the draws -/

end gecmi
